import Mathlib

/-!
# Verification development for `src/libply/ply-utils.c`

A shallow embedding of the utility layer of plymouth (`ply-utils.c`) and
theorems about it.  Calls into the C library and the kernel (`write`, `read`,
`stat`, `mkdir`, ...) are not part of the repository; they appear either as an
explicit list of results the call produced, or as the operations of an
operating-system model that the embedded functions take as a parameter.

A violated `assert` is the result `none` of the two errno functions and the
result `Outcome.assert_failed` elsewhere; undefined behaviour such as a null
dereference is `Outcome.undefined`.  Loops that the source leaves only on a
result of a system call run against a finite list of results, or with a bound
on the number of iterations, and are `pending` (`none` for the list) when
that is used up.

The file has the definitions first, then the lemmas, then one theorem for
each numbered property of the specification.
-/

namespace Ply

/-! ## Errno context (`ply_save_errno`, `ply_restore_errno`) -/

/-- The macro `PLY_ERRNO_STACK_SIZE`. -/
def PLY_ERRNO_STACK_SIZE : Nat := 256

/-- The ambient `errno` together with the two file-scope variables
`errno_stack` and `errno_stack_position`.  The array is a map from index to
value; the position is a natural number, as it starts at `0` and the two
assertions keep it inside `0 .. PLY_ERRNO_STACK_SIZE`. -/
structure ErrnoCtx where
  errno : Int
  errno_stack : Nat → Int
  errno_stack_position : Nat

/-- Embedding of `ply_save_errno`: `none` when
`assert (errno_stack_position < PLY_ERRNO_STACK_SIZE)` fails. -/
def ply_save_errno (c : ErrnoCtx) : Option ErrnoCtx :=
  if c.errno_stack_position < PLY_ERRNO_STACK_SIZE then
    some { errno := c.errno
           errno_stack := Function.update c.errno_stack c.errno_stack_position c.errno
           errno_stack_position := c.errno_stack_position + 1 }
  else none

/-- Embedding of `ply_restore_errno`: `none` when
`assert (errno_stack_position > 0)` fails. -/
def ply_restore_errno (c : ErrnoCtx) : Option ErrnoCtx :=
  if c.errno_stack_position > 0 then
    some { errno := c.errno_stack (c.errno_stack_position - 1)
           errno_stack := c.errno_stack
           errno_stack_position := c.errno_stack_position - 1 }
  else none

/-- Other code overwrote `errno` with `e`. -/
def set_errno (e : Int) (c : ErrnoCtx) : ErrnoCtx :=
  { c with errno := e }

/-- A run of calls to `ply_save_errno`; the ambient `errno` is `e` at the
call that consumes `e` from the list (so it changes freely between calls). -/
def save_all : List Int → ErrnoCtx → Option ErrnoCtx
  | [], c => some c
  | e :: es, c =>
    match ply_save_errno (set_errno e c) with
    | none => none
    | some c1 => save_all es c1

/-- A run of calls to `ply_restore_errno`; before each call the ambient
`errno` is overwritten with the next value of the list.  Returns the values
`errno` has right after the successive restores, and the final context. -/
def restore_all : List Int → ErrnoCtx → Option (List Int × ErrnoCtx)
  | [], c => some ([], c)
  | k :: ks, c =>
    match ply_restore_errno (set_errno k c) with
    | none => none
    | some c1 =>
      match restore_all ks c1 with
      | none => none
      | some (seen, c2) => some (c1.errno :: seen, c2)

/-- An empty errno stack, for concrete runs. -/
def errno_ctx_init : ErrnoCtx :=
  { errno := 0, errno_stack := fun _ => 0, errno_stack_position := 0 }

/-! ## Reliable I/O (`ply_write`, `ply_read_some_bytes`, `ply_read`) -/

/-- Values of `<errno.h>` on Linux. -/
def ENOENT : Int := 2
def EINTR : Int := 4
def EIO : Int := 5
def EAGAIN : Int := 11
def EEXIST : Int := 17

/-- `size_t` is an unsigned 64-bit integer and `ssize_t` a signed one (LP64). -/
def SIZE_MOD : Nat := 2 ^ 64

/-- The macro `SIZE_MAX`. -/
def SIZE_MAX : Nat := SIZE_MOD - 1

/-- Conversion of a signed value to `size_t`. -/
def to_size_t (i : Int) : Nat := (i % (SIZE_MOD : Int)).toNat

/-- Conversion of a `size_t` value to `ssize_t`. -/
def to_ssize_t (x : Nat) : Int :=
  if x < SIZE_MOD / 2 then (x : Int) else (x : Int) - (SIZE_MOD : Int)

/-- One call of `write` or `read` as the caller sees it: the value returned
and the value of `errno` once the call is back. -/
structure SysRet where
  ret : Int
  errno : Int
deriving DecidableEq, Repr

/-- The local variables of the two transfer loops when the loop is left,
with the value of `errno` at that point and the number of calls made. -/
structure LoopExit where
  bytes_left : Nat
  total_bytes : Nat
  errno : Int
  calls : Nat
deriving DecidableEq, Repr

/-- The `do ... while (bytes_left > 0)` loop shared by `ply_write` and
`ply_read_some_bytes`, run against the results the successive calls return.
`none`: the listed results are used up and the loop is still running. -/
def transfer_loop (bytes_left total_bytes calls : Nat) : List SysRet → Option LoopExit
  | [] => none
  | r :: rs =>
    if r.ret > 0 then
      let total1 := to_size_t ((total_bytes : Int) + r.ret)
      let left1 := to_size_t ((bytes_left : Int) - r.ret)
      if left1 > 0 then transfer_loop left1 total1 (calls + 1) rs
      else some { bytes_left := left1, total_bytes := total1, errno := r.errno, calls := calls + 1 }
    else if r.errno ≠ EINTR then
      some { bytes_left := bytes_left, total_bytes := total_bytes, errno := r.errno, calls := calls + 1 }
    else if bytes_left > 0 then transfer_loop bytes_left total_bytes (calls + 1) rs
    else some { bytes_left := bytes_left, total_bytes := total_bytes, errno := r.errno, calls := calls + 1 }

/-- Embedding of `ply_write (fd, buffer, number_of_bytes)` for a valid `fd`,
against the results of the successive `write` calls: the returned `bool` and
the number of calls. -/
def ply_write (number_of_bytes : Nat) (writes : List SysRet) : Option (Bool × Nat) :=
  match transfer_loop number_of_bytes 0 0 writes with
  | none => none
  | some x => some (decide (x.bytes_left = 0), x.calls)

/-- Embedding of `ply_read_some_bytes (fd, buffer, max_bytes)`: the returned
`ssize_t`, and the loop exit it was computed from. -/
def ply_read_some_bytes (max_bytes : Nat) (reads : List SysRet) : Option (Int × LoopExit) :=
  match transfer_loop max_bytes 0 0 reads with
  | none => none
  | some x =>
    let total := if x.bytes_left > 0 ∧ x.errno ≠ EAGAIN then to_size_t (-1) else x.total_bytes
    some (to_ssize_t total, x)

/-- Result of a function that may stop at an `assert` (`assert_failed`), run
into undefined behaviour such as a null dereference (`undefined`), or still
be running when the model has no further step for it (`pending`). -/
inductive Outcome (α : Type) where
  | done (a : α)
  | assert_failed
  | undefined
  | pending
deriving DecidableEq, Repr

/-- Embedding of `ply_read (fd, buffer, number_of_bytes)` for a valid `fd` and
`buffer`: the returned `bool` together with the exit state of the loop.
`pending`: the listed results are used up and the loop is still running. -/
def ply_read (number_of_bytes : Nat) (reads : List SysRet) : Outcome (Bool × LoopExit) :=
  if number_of_bytes = 0 then Outcome.assert_failed
  else
    match ply_read_some_bytes number_of_bytes reads with
    | none => Outcome.pending
    | some (r, x) =>
      let total_bytes_read := to_size_t r
      Outcome.done (decide (total_bytes_read = number_of_bytes), x)

/-- The sum of the positive counts among the given results. -/
def positive_sum : List SysRet → Nat
  | [] => 0
  | r :: rs => (if r.ret > 0 then r.ret.toNat else 0) + positive_sum rs

/-- Every positive count is at most the number of bytes still outstanding
when the call is made. -/
def counts_fit : Nat → List SysRet → Prop
  | _, [] => True
  | left, r :: rs =>
    if r.ret > 0 then r.ret ≤ (left : Int) ∧ counts_fit (left - r.ret.toNat) rs
    else counts_fit left rs

instance counts_fit_decidable : ∀ (left : Nat) (rs : List SysRet), Decidable (counts_fit left rs)
  | _, [] => isTrue trivial
  | left, r :: rs =>
    if h : r.ret > 0 then
      match (inferInstance : Decidable (r.ret ≤ (left : Int))),
            counts_fit_decidable (left - r.ret.toNat) rs with
      | isTrue h1, isTrue h2 => isTrue (by simp only [counts_fit, h, if_true]; exact ⟨h1, h2⟩)
      | isFalse h1, _ => isFalse (by simp only [counts_fit, h, if_true]; exact fun hc => h1 hc.1)
      | _, isFalse h2 => isFalse (by simp only [counts_fit, h, if_true]; exact fun hc => h2 hc.2)
    else
      match counts_fit_decidable left rs with
      | isTrue h2 => isTrue (by simp only [counts_fit, h, if_false]; exact h2)
      | isFalse h2 => isFalse (by simp only [counts_fit, h, if_false]; exact h2)

/-! ## Unix socket addresses (`create_unix_address_from_path`) -/

/-- A C string is represented by its text: the bytes before the terminating
NUL.  `strlen` is then the length of the list. -/
abbrev CStr := List Char

/-- The NUL byte. -/
def NUL : Char := Char.ofNat 0

/-- Embedding of `strlen`. -/
def strlen (s : CStr) : Nat := s.length

/-- Layout of `struct sockaddr_un` on Linux (`<sys/un.h>`): `sun_family` is a
2-byte `sa_family_t`, `sun_path` is `char[108]`, the record has 110 bytes. -/
def SIZEOF_SUN_FAMILY : Nat := 2
def SIZEOF_SUN_PATH : Nat := 108
def SIZEOF_SOCKADDR_UN : Nat := 110

/-- The address family constant `AF_UNIX`. -/
def AF_UNIX : Nat := 1

/-- The fields of a `struct sockaddr_un`. -/
structure sockaddr_un where
  sun_family : Nat
  sun_path : List Char
deriving DecidableEq, Repr

/-- Embedding of `strncpy (buffer + offset, src, n)`: exactly `n` bytes are
written, the text of `src` (at most `n` bytes of it) followed by NUL padding.
`none` when the `n` bytes do not fit the buffer. -/
def strncpy (buffer : List Char) (offset : Nat) (src : CStr) (n : Nat) : Option (List Char) :=
  if offset + n ≤ buffer.length then
    some (buffer.take offset ++ (src.take n ++ List.replicate (n - src.length) NUL)
      ++ buffer.drop (offset + n))
  else none

/-- The two `strncpy` calls of `create_unix_address_from_path` on the
zero-filled `sun_path` that `calloc` returned.  `none` when a copy would leave
the field. -/
def fill_sun_path (path : CStr) (is_abstract : Bool) : Option (List Char) :=
  let zeroed : List Char := List.replicate SIZEOF_SUN_PATH NUL
  if ¬ is_abstract then strncpy zeroed 0 path (SIZEOF_SUN_PATH - 1)
  else strncpy zeroed 1 path (SIZEOF_SUN_PATH - 1)

/-- Embedding of `create_unix_address_from_path (path, is_abstract, address_size)`.
`path = none` is the null pointer; `address_size_given` says that the
out-parameter `address_size` is not null; `calloc_ok` says that `calloc`
returned memory.  The result is the address record and the value stored in
`*address_size`, if any. -/
def create_unix_address_from_path (path : Option CStr) (is_abstract : Bool)
    (address_size_given : Bool) (calloc_ok : Bool) : Outcome (sockaddr_un × Option Nat) :=
  match path with
  | none => Outcome.assert_failed
  | some path =>
    if ¬ (strlen path < SIZEOF_SUN_FAMILY) then Outcome.assert_failed
    else if ¬ calloc_ok then Outcome.undefined
    else
      match fill_sun_path path is_abstract with
      | none => Outcome.undefined
      | some sun_path =>
        Outcome.done ({ sun_family := AF_UNIX, sun_path := sun_path },
          if address_size_given then some SIZEOF_SOCKADDR_UN else none)

/-- The content of `sun_path` that the specification describes for a path
text: the text from byte 0, or a zero byte and the text from byte 1, and zero
bytes up to the end of the field. -/
def sun_path_layout (text : CStr) (is_abstract : Bool) : List Char :=
  (if is_abstract then [NUL] else []) ++ text ++
    List.replicate (SIZEOF_SUN_PATH - strlen text - (if is_abstract then 1 else 0)) NUL

/-! ## Descriptor table (`ply_get_max_open_fds`, `ply_close_open_fds`, `ply_close_all_fds`) -/

/-- The macros `INT_MAX`, `LONG_MAX`, `LONG_MIN` and `RLIM_INFINITY` (LP64 Linux). -/
def INT_MAX : Int := 2147483647
def LONG_MAX : Int := 9223372036854775807
def LONG_MIN : Int := -9223372036854775808
def RLIM_INFINITY : Nat := 18446744073709551615

/-- The cast `(int) x` of an unsigned 64-bit value. -/
def to_int (x : Nat) : Int :=
  if x % 4294967296 < 2147483648 then ((x % 4294967296 : Nat) : Int)
  else ((x % 4294967296 : Nat) : Int) - 4294967296

/-- Embedding of `ply_get_max_open_fds`.  The argument is what
`getrlimit (RLIMIT_NOFILE, ...)` produced: `none` when it failed, otherwise
the value of `rlim_cur`. -/
def ply_get_max_open_fds (rlimit : Option Nat) : Int :=
  match rlimit with
  | none => -1
  | some rlim_cur => if rlim_cur = RLIM_INFINITY then -1 else to_int rlim_cur

/-- The byte `s[i]` of a C string, for `i` up to the terminating NUL. -/
def char_at (s : CStr) (i : Nat) : Char := s.getD i NUL

/-- The predicate `isspace` in the C locale. -/
def isspace (c : Char) : Bool :=
  c = ' ' ∨ c = Char.ofNat 9 ∨ c = Char.ofNat 10 ∨ c = Char.ofNat 11 ∨ c = Char.ofNat 12
    ∨ c = Char.ofNat 13

/-- The value of a run of decimal digits. -/
def digits_value (ds : List Char) : Nat :=
  ds.foldl (fun acc d => 10 * acc + (d.toNat - '0'.toNat)) 0

/-- The result of `strtol` once the blanks, the sign and the digits are
found: the `long` returned and the pointer stored in `end`, as `some offset`
for the address `s + offset`.  When there are no digits, the value is 0 and
`end` is `s` itself. -/
def strtol_result (negative : Bool) (start : Nat) (digits : List Char) : Int × Option Nat :=
  if digits = [] then (0, some 0)
  else
    let magnitude : Int := digits_value digits
    let value := if negative then max LONG_MIN (- magnitude) else min LONG_MAX magnitude
    (value, some (start + digits.length))

/-- Model of `strtol (s, &end, 10)`: leading blanks, an optional sign, and
decimal digits.  The C library always stores a pointer into `s` in `end`,
never the null pointer. -/
def strtol (s : CStr) : Int × Option Nat :=
  let blanks := s.takeWhile isspace
  let rest := s.drop blanks.length
  let negative : Bool := rest.head? = some '-'
  let sign_length := if rest.head? = some '-' ∨ rest.head? = some '+' then 1 else 0
  let digits := (rest.drop sign_length).takeWhile Char.isDigit
  strtol_result negative (blanks.length + sign_length) digits

/-- The `while ((entry = readdir (dir)) != NULL)` loop of `ply_close_open_fds`
over the names the successive `readdir` calls return.  `closed` collects the
arguments of the `close` calls, in order.  The result `true` stands for
leaving the loop at its end, `false` for the `return false` inside it.  The
assignment `errno = 0` has no effect on either and is left out. -/
def close_open_fds_loop (opendir_fd : Int) (closed : List Int) :
    List CStr → Outcome (Bool × List Int)
  | [] => Outcome.done (true, closed)
  | d_name :: entries =>
    if char_at d_name 0 = '.' then close_open_fds_loop opendir_fd closed entries
    else
      match strtol d_name with
      | (filename_as_number, byte_after_number) =>
        if byte_after_number ≠ none then close_open_fds_loop opendir_fd closed entries
        else
          match byte_after_number with
          | none => Outcome.undefined
          | some offset =>
            if char_at d_name offset ≠ NUL ∨ filename_as_number < 0
                ∨ filename_as_number > INT_MAX then
              Outcome.done (false, closed)
            else
              let fd := filename_as_number
              if fd ≠ opendir_fd then
                close_open_fds_loop opendir_fd (closed ++ [fd]) entries
              else close_open_fds_loop opendir_fd closed entries

/-- Embedding of `ply_close_open_fds`.  The argument is what `opendir` and the
`readdir` calls on `PLY_OPEN_FILE_DESCRIPTORS_DIR` produced: `none` when
`opendir` returned `NULL`, otherwise the entry names in the order read.
Returns the `bool` and the arguments of the `close` calls made. -/
def ply_close_open_fds (listing : Option (List CStr)) : Outcome (Bool × List Int) :=
  let opendir_fd : Int := -1
  match listing with
  | none => Outcome.done (false, [])
  | some entries => close_open_fds_loop opendir_fd [] entries

/-- The loop `for (fd = 0; fd < max_open_fds; fd++) close (fd);`: the
arguments of the `close` calls. -/
def close_range (max_open_fds : Int) : List Int :=
  (List.range max_open_fds.toNat).map (fun fd => (fd : Int))

/-- Embedding of `ply_close_all_fds`: the arguments of all the `close` calls
it makes, in order. -/
def ply_close_all_fds (rlimit : Option Nat) (listing : Option (List CStr)) :
    Outcome (List Int) :=
  let max_open_fds := ply_get_max_open_fds rlimit
  if max_open_fds < 0 then
    match ply_close_open_fds listing with
    | Outcome.done (true, closed) => Outcome.done closed
    | Outcome.done (false, closed) =>
      -- `max_open_fds = INT_MAX;` and the `if` statement is over: the `for`
      -- loop is its `else` branch
      Outcome.done closed
    | Outcome.assert_failed => Outcome.assert_failed
    | Outcome.undefined => Outcome.undefined
    | Outcome.pending => Outcome.pending
  else Outcome.done (close_range max_open_fds)

/-! ## Filesystem operations (`ply_directory_exists`, `ply_file_exists`, `ply_create_directory`) -/

/-- The file type bits of `st_mode` and the macros `S_ISDIR`, `S_ISREG`
(`<sys/stat.h>` on Linux). -/
def S_IFMT : Nat := 0o170000
def S_IFDIR : Nat := 0o040000
def S_IFREG : Nat := 0o100000
def S_ISDIR (st_mode : Nat) : Bool := st_mode &&& S_IFMT = S_IFDIR
def S_ISREG (st_mode : Nat) : Bool := st_mode &&& S_IFMT = S_IFREG

/-- The system calls on paths used by `ply_create_directory`, over a type
`σ` of filesystem states.  `stat` yields `st_mode` or fails with an errno
value; `mkdir` yields the new state or fails with an errno value, in which
case the state is as before. -/
structure FileSystem (σ : Type) where
  stat : σ → CStr → Except Int Nat
  mkdir : σ → CStr → Nat → Except Int σ

/-- What the model records of a run. -/
inductive Event where
  | create_directory_called (directory : CStr)
  | mkdir_called (path : CStr) (mode : Nat)
deriving DecidableEq, Repr

/-- The state a function runs in: the filesystem, the errno context, and the
record of the calls made so far. -/
structure World (σ : Type) where
  fs : σ
  ctx : ErrnoCtx
  events : List Event

/-- The world after `errno` was assigned `e`. -/
def World.with_errno {σ : Type} (w : World σ) (e : Int) : World σ :=
  { w with ctx := set_errno e w.ctx }

/-- The world after an event was recorded. -/
def World.record {σ : Type} (w : World σ) (ev : Event) : World σ :=
  { w with events := w.events ++ [ev] }

/-- Embedding of `ply_directory_exists`: a failing `stat` leaves its errno. -/
def ply_directory_exists {σ : Type} (os : FileSystem σ) (dir : CStr) (w : World σ) :
    Bool × World σ :=
  match os.stat w.fs dir with
  | Except.error e => (false, w.with_errno e)
  | Except.ok st_mode => (S_ISDIR st_mode, w)

/-- Embedding of `ply_file_exists`. -/
def ply_file_exists {σ : Type} (os : FileSystem σ) (file : CStr) (w : World σ) :
    Bool × World σ :=
  match os.stat w.fs file with
  | Except.error e => (false, w.with_errno e)
  | Except.ok st_mode => (S_ISREG st_mode, w)

/-- Embedding of `strrchr (s, c)` for a character `c` other than NUL: the
offset of the last occurrence, `none` for the null pointer. -/
def strrchr : CStr → Char → Option Nat
  | [], _ => none
  | x :: xs, c =>
    match strrchr xs c with
    | some i => some (i + 1)
    | none => if x = c then some 0 else none

/-- The sequence `ply_save_errno (); free (...); ply_restore_errno ();`.
`free_errno` gives the value `errno` has after the calls of `free`, from the
value it had before. -/
def save_free_restore {σ : Type} (free_errno : Int → Int) (w : World σ) : Outcome (World σ) :=
  match ply_save_errno w.ctx with
  | none => Outcome.assert_failed
  | some c1 =>
    match ply_restore_errno (set_errno (free_errno c1.errno) c1) with
    | none => Outcome.assert_failed
    | some c2 => Outcome.done { w with ctx := c2 }

/-- Embedding of `ply_create_directory (directory)` for a non-null
`directory`, with allocation by `strdup` succeeding.  The first argument
bounds the depth of the recursion (`pending` when it is used up). -/
def ply_create_directory_aux {σ : Type} (os : FileSystem σ) (free_errno : Int → Int) :
    Nat → CStr → World σ → Outcome (Bool × World σ)
  | 0, _, _ => Outcome.pending
  | fuel + 1, directory, w0 =>
    let w := w0.record (Event.create_directory_called directory)
    if directory = [] then Outcome.assert_failed
    else
      match ply_directory_exists os directory w with
      | (true, w1) => Outcome.done (true, w1)
      | (false, w1) =>
        match ply_file_exists os directory w1 with
        | (true, w2) => Outcome.done (false, w2.with_errno EEXIST)
        | (false, w2) =>
          let w3 := w2.record (Event.mkdir_called directory 0o755)
          match os.mkdir w3.fs directory 0o755 with
          | Except.ok fs4 => Outcome.done (true, { w3 with fs := fs4 })
          | Except.error e =>
            let w4 := w3.with_errno e
            if e = ENOENT then
              match strrchr directory '/' with
              | none => Outcome.undefined
              | some last_path_component =>
                let parent_directory := directory.take last_path_component
                match ply_create_directory_aux os free_errno fuel parent_directory w4 with
                | Outcome.done (true, w5) =>
                  let w6 := w5.record (Event.mkdir_called directory 0o755)
                  match os.mkdir w6.fs directory 0o755 with
                  | Except.ok fs7 =>
                    match save_free_restore free_errno { w6 with fs := fs7 } with
                    | Outcome.done w8 => Outcome.done (true, w8)
                    | Outcome.assert_failed => Outcome.assert_failed
                    | Outcome.undefined => Outcome.undefined
                    | Outcome.pending => Outcome.pending
                  | Except.error e7 =>
                    match save_free_restore free_errno (w6.with_errno e7) with
                    | Outcome.done w8 => Outcome.done (decide (e7 = EEXIST), w8)
                    | Outcome.assert_failed => Outcome.assert_failed
                    | Outcome.undefined => Outcome.undefined
                    | Outcome.pending => Outcome.pending
                | Outcome.done (false, w5) =>
                  match save_free_restore free_errno w5 with
                  | Outcome.done w8 => Outcome.done (false, w8)
                  | Outcome.assert_failed => Outcome.assert_failed
                  | Outcome.undefined => Outcome.undefined
                  | Outcome.pending => Outcome.pending
                | Outcome.assert_failed => Outcome.assert_failed
                | Outcome.undefined => Outcome.undefined
                | Outcome.pending => Outcome.pending
            else Outcome.done (false, w4)

/-- Embedding of `ply_create_directory (directory)`: each recursive call is on
a strictly shorter path, so a depth of `strlen (directory) + 1` is enough. -/
def ply_create_directory {σ : Type} (os : FileSystem σ) (free_errno : Int → Int)
    (directory : CStr) (w : World σ) : Outcome (Bool × World σ) :=
  ply_create_directory_aux os free_errno (strlen directory + 1) directory w

/-- The test made by `ply_directory_exists`, on a filesystem state. -/
def is_directory {σ : Type} (os : FileSystem σ) (s : σ) (path : CStr) : Bool :=
  match os.stat s path with
  | Except.error _ => false
  | Except.ok st_mode => S_ISDIR st_mode

/-- The test made by `ply_file_exists`, on a filesystem state. -/
def is_regular_file {σ : Type} (os : FileSystem σ) (s : σ) (path : CStr) : Bool :=
  match os.stat s path with
  | Except.error _ => false
  | Except.ok st_mode => S_ISREG st_mode

/-- The property of `stat` and `mkdir` on a filesystem that only this process
changes: when `mkdir` has made a directory, `stat` on the same path finds a
directory. -/
structure FileSystem.Lawful {σ : Type} (os : FileSystem σ) : Prop where
  mkdir_makes_directory : ∀ (s s1 : σ) (path : CStr) (mode : Nat),
    os.mkdir s path mode = Except.ok s1 → is_directory os s1 path = true

/-! ### A small filesystem for concrete runs -/

/-- A node of the small filesystem: its `st_mode` and, for a file, its bytes. -/
structure SimNode where
  st_mode : Nat
  content : List Char
deriving DecidableEq, Repr

/-- The small filesystem: the nodes by path.  A path is looked up as it is
written; the working directory and the root exist without being listed. -/
abbrev SimFS := List (CStr × SimNode)

/-- The node at a path. -/
def SimFS.lookup (s : SimFS) (path : CStr) : Option SimNode :=
  match s.find? (fun entry => entry.1 = path) with
  | none => none
  | some entry => some entry.2

/-- Whether the directory that is to hold `path` exists. -/
def SimFS.parent_is_directory (s : SimFS) (path : CStr) : Bool :=
  match strrchr path '/' with
  | none => true
  | some 0 => true
  | some (i + 1) =>
    match s.lookup (path.take (i + 1)) with
    | none => false
    | some node => S_ISDIR node.st_mode

/-- The calls `stat` and `mkdir` of the small filesystem. -/
def sim_stat (s : SimFS) (path : CStr) : Except Int Nat :=
  match s.lookup path with
  | none => Except.error ENOENT
  | some node => Except.ok node.st_mode

/-- The node of a directory just made with the given mode. -/
def sim_new_directory (mode : Nat) : SimNode :=
  { st_mode := S_IFDIR ||| (mode &&& 0o7777), content := [] }

def sim_mkdir (s : SimFS) (path : CStr) (mode : Nat) : Except Int SimFS :=
  match s.lookup path with
  | some _ => Except.error EEXIST
  | none =>
    if path ≠ [] ∧ s.parent_is_directory path then
      Except.ok (s ++ [(path, sim_new_directory mode)])
    else Except.error ENOENT

def sim_fs : FileSystem SimFS :=
  { stat := sim_stat, mkdir := sim_mkdir }

/-- A world on the small filesystem with an empty errno stack. -/
def sim_world (s : SimFS) : World SimFS :=
  { fs := s, ctx := errno_ctx_init, events := [] }

/-- What a run shows: the result, the final filesystem, errno, the depth of
the errno stack, and the events. -/
structure Seen (σ : Type) where
  result : Bool
  fs : σ
  errno : Int
  depth : Nat
  events : List Event
deriving DecidableEq, Repr

def observe {σ : Type} (r : Outcome (Bool × World σ)) : Outcome (Seen σ) :=
  match r with
  | Outcome.done (b, w) =>
    Outcome.done { result := b, fs := w.fs, errno := w.ctx.errno,
                   depth := w.ctx.errno_stack_position, events := w.events }
  | Outcome.assert_failed => Outcome.assert_failed
  | Outcome.undefined => Outcome.undefined
  | Outcome.pending => Outcome.pending

/-- Flags of `open` (`<fcntl.h>` on Linux) and further errno values. -/
def O_RDONLY : Nat := 0
def O_WRONLY : Nat := 1
def O_CREAT : Nat := 0o100
def O_NOFOLLOW : Nat := 0o400000
def EBADF : Int := 9
def EFAULT : Int := 14
def ENOTDIR : Int := 20

/-- The system calls used by the copy functions, on top of `stat` and
`mkdir`.  `opendir` yields the names that the `readdir` calls on the stream
return, in order; `sys_open` yields the new descriptor; `read` yields the
bytes read (none at end of file); `write` is given the bytes from the buffer
pointer to the end of the buffer and the count requested, and yields the
count written.  A failing call yields its errno value. -/
structure FileOps (σ : Type) extends FileSystem σ where
  opendir : σ → CStr → Except Int (List CStr)
  sys_open : σ → CStr → Nat → Nat → Except Int (Int × σ)
  fstat : σ → Int → Except Int Nat
  read : σ → Int → Nat → Except Int (List Char) × σ
  write : σ → Int → List Char → Nat → Except Int Nat × σ
  close : σ → Int → Except Int Unit × σ

/-- The world after the filesystem changed to `s`. -/
def World.with_fs {σ : Type} (w : World σ) (s : σ) : World σ :=
  { w with fs := s }

/-- The world after a system call returned: a failure stores its errno. -/
def World.after {σ α : Type} (w : World σ) (r : Except Int α) (s : σ) : World σ :=
  match r with
  | Except.ok _ => w.with_fs s
  | Except.error e => (w.with_fs s).with_errno e

/-- The `do ... while (bytes_left_to_write > 0)` loop of `ply_write` on the
system-call model, each `write` being given the rest of the buffer.  The
first argument bounds the number of iterations. -/
def ply_write_loop {σ : Type} (os : FileOps σ) (fd : Int) (buffer : List Char) :
    Nat → Nat → Nat → World σ → Outcome (Bool × World σ)
  | 0, _, _, _ => Outcome.pending
  | fuel + 1, bytes_left_to_write, total_bytes_written, w =>
    match os.write w.fs fd (buffer.drop total_bytes_written) bytes_left_to_write with
    | (Except.ok bytes_written, s1) =>
      if bytes_written > 0 then
        let total1 := to_size_t ((total_bytes_written : Int) + bytes_written)
        let left1 := to_size_t ((bytes_left_to_write : Int) - bytes_written)
        if left1 > 0 then ply_write_loop os fd buffer fuel left1 total1 (w.with_fs s1)
        else Outcome.done (decide (left1 = 0), w.with_fs s1)
      else if (w.with_fs s1).ctx.errno ≠ EINTR then
        Outcome.done (decide (bytes_left_to_write = 0), w.with_fs s1)
      else if bytes_left_to_write > 0 then
        ply_write_loop os fd buffer fuel bytes_left_to_write total_bytes_written (w.with_fs s1)
      else Outcome.done (decide (bytes_left_to_write = 0), w.with_fs s1)
    | (Except.error e, s1) =>
      if e ≠ EINTR then
        Outcome.done (decide (bytes_left_to_write = 0), (w.with_fs s1).with_errno e)
      else if bytes_left_to_write > 0 then
        ply_write_loop os fd buffer fuel bytes_left_to_write total_bytes_written
          ((w.with_fs s1).with_errno e)
      else Outcome.done (decide (bytes_left_to_write = 0), (w.with_fs s1).with_errno e)

/-- Embedding of `ply_write (fd, buffer, number_of_bytes)` on the system-call
model, with its assertion `fd >= 0`. -/
def ply_write_on {σ : Type} (os : FileOps σ) (fuel : Nat) (fd : Int) (buffer : List Char)
    (number_of_bytes : Nat) (w : World σ) : Outcome (Bool × World σ) :=
  if fd < 0 then Outcome.assert_failed
  else ply_write_loop os fd buffer fuel number_of_bytes 0 w

/-- The size of `char buffer[4096]` in `ply_copy_file`. -/
def COPY_BUFFER_SIZE : Nat := 4096

/-- The `while ("we want to copy the file")` loop of `ply_copy_file`.
`bytes_read` is a `size_t`, so the test `bytes_read < 0` never holds and a
failed `read` (`-1`) reaches `ply_write` as the count `SIZE_MAX`.  The result
`true` stands for leaving the loop by `break`, `false` for `goto out`. -/
def copy_file_loop {σ : Type} (os : FileOps σ) (source_fd destination_fd : Int) :
    Nat → List Char → World σ → Outcome (Bool × World σ)
  | 0, _, _ => Outcome.pending
  | fuel + 1, buffer, w =>
    match os.read w.fs source_fd COPY_BUFFER_SIZE with
    | (r, s1) =>
      let w1 := w.after r s1
      let ret : Int :=
        match r with
        | Except.ok bytes => (bytes.length : Int)
        | Except.error _ => -1
      let buffer1 :=
        match r with
        | Except.ok bytes => bytes ++ buffer.drop bytes.length
        | Except.error _ => buffer
      let bytes_read := to_size_t ret
      if bytes_read = 0 then Outcome.done (true, w1)
      else
        match ply_write_on os (fuel + 1) destination_fd buffer1 bytes_read w1 with
        | Outcome.done (true, w2) => copy_file_loop os source_fd destination_fd fuel buffer1 w2
        | Outcome.done (false, w2) => Outcome.done (false, w2)
        | Outcome.assert_failed => Outcome.assert_failed
        | Outcome.undefined => Outcome.undefined
        | Outcome.pending => Outcome.pending

/-- The code at the label `out` of `ply_copy_file`: both descriptors are
closed between `ply_save_errno` and `ply_restore_errno`. -/
def copy_file_out {σ : Type} (os : FileOps σ) (source_fd destination_fd : Int)
    (file_copied : Bool) (w : World σ) : Outcome (Bool × World σ) :=
  match ply_save_errno w.ctx with
  | none => Outcome.assert_failed
  | some c1 =>
    let w1 : World σ := { w with ctx := c1 }
    match os.close w1.fs source_fd with
    | (r2, s2) =>
      let w2 := w1.after r2 s2
      match os.close w2.fs destination_fd with
      | (r3, s3) =>
        let w3 := w2.after r3 s3
        match ply_restore_errno w3.ctx with
        | none => Outcome.assert_failed
        | some c4 => Outcome.done (file_copied, { w3 with ctx := c4 })

/-- Embedding of `ply_copy_file (source, destination)`.  The first argument
bounds the iterations of the loops; `buffer` is the initial content of the
local array. -/
def ply_copy_file {σ : Type} (os : FileOps σ) (fuel : Nat) (buffer : List Char)
    (source destination : CStr) (w : World σ) : Outcome (Bool × World σ) :=
  match os.sys_open w.fs source (O_RDONLY ||| O_NOFOLLOW) 0 with
  | Except.error e => copy_file_out os (-1) (-1) false (w.with_errno e)
  | Except.ok (source_fd, s1) =>
    let w1 := w.with_fs s1
    match os.fstat w1.fs source_fd with
    | Except.error e => copy_file_out os source_fd (-1) false (w1.with_errno e)
    | Except.ok st_mode =>
      match os.sys_open w1.fs destination (O_WRONLY ||| O_NOFOLLOW ||| O_CREAT) st_mode with
      | Except.error e => copy_file_out os source_fd (-1) false (w1.with_errno e)
      | Except.ok (destination_fd, s2) =>
        let w2 := w1.with_fs s2
        match copy_file_loop os source_fd destination_fd fuel buffer w2 with
        | Outcome.done (file_copied, w3) =>
          copy_file_out os source_fd destination_fd file_copied w3
        | Outcome.assert_failed => Outcome.assert_failed
        | Outcome.undefined => Outcome.undefined
        | Outcome.pending => Outcome.pending

/-- The string `asprintf` builds from `"%s/%s"`. -/
def path_join (parent name : CStr) : CStr := parent ++ ['/'] ++ name

/-- The failure branch shared by the copy helpers: the paths are freed between
`ply_save_errno` and `ply_restore_errno`, and false is returned. -/
def fail_after_free {σ : Type} (free_errno : Int → Int) (w : World σ) :
    Outcome (Bool × World σ) :=
  match save_free_restore free_errno w with
  | Outcome.done w1 => Outcome.done (false, w1)
  | Outcome.assert_failed => Outcome.assert_failed
  | Outcome.undefined => Outcome.undefined
  | Outcome.pending => Outcome.pending

/-- The world after calls of `free` outside a save/restore pair. -/
def World.after_free {σ : Type} (free_errno : Int → Int) (w : World σ) : World σ :=
  w.with_errno (free_errno w.ctx.errno)

/-- Embedding of `ply_copy_file_in_directory (filename, parent, destination)`. -/
def ply_copy_file_in_directory {σ : Type} (os : FileOps σ) (free_errno : Int → Int)
    (fuel : Nat) (buffer : List Char) (filename parent destination : CStr) (w : World σ) :
    Outcome (Bool × World σ) :=
  let source := path_join parent filename
  let target := path_join destination filename
  match ply_copy_file os fuel buffer source target w with
  | Outcome.done (false, w1) => fail_after_free free_errno w1
  | Outcome.done (true, w1) => Outcome.done (true, w1.after_free free_errno)
  | Outcome.assert_failed => Outcome.assert_failed
  | Outcome.undefined => Outcome.undefined
  | Outcome.pending => Outcome.pending

/-- Embedding of `ply_copy_subdirectory (subdirectory, parent, destination)`;
`copy_directory` is the function `ply_copy_directory` it calls. -/
def ply_copy_subdirectory {σ : Type} (free_errno : Int → Int)
    (copy_directory : CStr → CStr → World σ → Outcome (Bool × World σ))
    (subdirectory parent destination : CStr) (w : World σ) : Outcome (Bool × World σ) :=
  let source := path_join parent subdirectory
  let target := path_join destination subdirectory
  match copy_directory source target w with
  | Outcome.done (false, w1) => fail_after_free free_errno w1
  | Outcome.done (true, w1) => Outcome.done (true, w1.after_free free_errno)
  | Outcome.assert_failed => Outcome.assert_failed
  | Outcome.undefined => Outcome.undefined
  | Outcome.pending => Outcome.pending

/-- The `while ((entry = readdir (dir)) != NULL)` loop of `ply_copy_directory`
over the names read. -/
def copy_directory_loop {σ : Type} (os : FileOps σ) (free_errno : Int → Int)
    (fuel : Nat) (buffer : List Char)
    (copy_directory : CStr → CStr → World σ → Outcome (Bool × World σ))
    (source destination : CStr) : List CStr → World σ → Outcome (Bool × World σ)
  | [], w => Outcome.done (true, w)
  | d_name :: entries, w =>
    if d_name = ['.'] then
      copy_directory_loop os free_errno fuel buffer copy_directory source destination entries w
    else if d_name = ['.', '.'] then
      copy_directory_loop os free_errno fuel buffer copy_directory source destination entries w
    else
      let full_path := path_join source d_name
      match ply_directory_exists os.toFileSystem full_path w with
      | (true, w1) =>
        match ply_copy_subdirectory free_errno copy_directory d_name source destination w1 with
        | Outcome.done (false, w2) => fail_after_free free_errno w2
        | Outcome.done (true, w2) =>
          copy_directory_loop os free_errno fuel buffer copy_directory source destination
            entries (w2.after_free free_errno)
        | Outcome.assert_failed => Outcome.assert_failed
        | Outcome.undefined => Outcome.undefined
        | Outcome.pending => Outcome.pending
      | (false, w1) =>
        match ply_file_exists os.toFileSystem full_path w1 with
        | (true, w2) =>
          match ply_copy_file_in_directory os free_errno fuel buffer d_name source
              destination w2 with
          | Outcome.done (false, w3) => fail_after_free free_errno w3
          | Outcome.done (true, w3) =>
            copy_directory_loop os free_errno fuel buffer copy_directory source destination
              entries (w3.after_free free_errno)
          | Outcome.assert_failed => Outcome.assert_failed
          | Outcome.undefined => Outcome.undefined
          | Outcome.pending => Outcome.pending
        | (false, w2) =>
          copy_directory_loop os free_errno fuel buffer copy_directory source destination
            entries (w2.after_free free_errno)

/-- Embedding of `ply_copy_directory (source, destination)` for non-null
paths.  `fuel` bounds the depth of the recursion into subdirectories and the
iterations of the file loops. -/
def ply_copy_directory {σ : Type} (os : FileOps σ) (free_errno : Int → Int)
    (buffer : List Char) : Nat → CStr → CStr → World σ → Outcome (Bool × World σ)
  | 0, _, _, _ => Outcome.pending
  | fuel + 1, source, destination, w =>
    if source = [] then Outcome.assert_failed
    else if destination = [] then Outcome.assert_failed
    else
      match os.opendir w.fs source with
      | Except.error e => Outcome.done (false, w.with_errno e)
      | Except.ok entries =>
        copy_directory_loop os free_errno (fuel + 1) buffer
          (ply_copy_directory os free_errno buffer fuel) source destination entries w

/-! ### The small filesystem with open files -/

/-- The small filesystem with a table of open descriptors: for each, the path
opened and the file offset. -/
structure SimOS where
  files : SimFS
  fds : List (Int × CStr × Nat)
deriving DecidableEq, Repr

/-- The entry of a descriptor in the table. -/
def SimOS.descriptor (s : SimOS) (fd : Int) : Option (CStr × Nat) :=
  match s.fds.find? (fun entry => entry.1 = fd) with
  | none => none
  | some entry => some entry.2

/-- The lowest descriptor from 3 on that is not open. -/
def SimOS.free_fd (s : SimOS) : Int :=
  match (List.range (s.fds.length + 1)).find?
      (fun n => (s.descriptor ((n : Int) + 3)).isNone) with
  | none => (s.fds.length : Int) + 3
  | some n => (n : Int) + 3

/-- The name under which `path` is listed in the directory `dir`, if it is
an entry of `dir`. -/
def child_name (dir path : CStr) : Option CStr :=
  if (dir ++ ['/']).isPrefixOf path then
    let name := path.drop (dir.length + 1)
    if name ≠ [] ∧ '/' ∉ name then some name else none
  else none

def sim_opendir (s : SimOS) (path : CStr) : Except Int (List CStr) :=
  match s.files.lookup path with
  | none => Except.error ENOENT
  | some node =>
    if S_ISDIR node.st_mode then
      Except.ok (['.'] :: ['.', '.'] :: s.files.filterMap (fun entry => child_name path entry.1))
    else Except.error ENOTDIR

def sim_open (s : SimOS) (path : CStr) (flags mode : Nat) : Except Int (Int × SimOS) :=
  match s.files.lookup path with
  | some _ => Except.ok (s.free_fd, { s with fds := s.fds ++ [(s.free_fd, path, 0)] })
  | none =>
    if flags &&& O_CREAT ≠ 0 ∧ path ≠ [] ∧ s.files.parent_is_directory path then
      Except.ok (s.free_fd,
        { files := s.files ++ [(path, { st_mode := S_IFREG ||| (mode &&& 0o7777), content := [] })]
          fds := s.fds ++ [(s.free_fd, path, 0)] })
    else Except.error ENOENT

def sim_fstat (s : SimOS) (fd : Int) : Except Int Nat :=
  match s.descriptor fd with
  | none => Except.error EBADF
  | some (path, _) => sim_stat s.files path

/-- The table of descriptors with the offset of `fd` set. -/
def SimOS.seek (s : SimOS) (fd : Int) (offset : Nat) : SimOS :=
  { s with fds := s.fds.map (fun entry =>
      if entry.1 = fd then (entry.1, entry.2.1, offset) else entry) }

def sim_read (s : SimOS) (fd : Int) (count : Nat) : Except Int (List Char) × SimOS :=
  match s.descriptor fd with
  | none => (Except.error EBADF, s)
  | some (path, offset) =>
    match s.files.lookup path with
    | none => (Except.error EBADF, s)
    | some node =>
      let bytes := (node.content.drop offset).take count
      (Except.ok bytes, s.seek fd (offset + bytes.length))

/-- The call `write`: the first `count` bytes of the buffer go to the file at
the offset of the descriptor; `EFAULT` when the buffer holds fewer bytes. -/
def sim_write (s : SimOS) (fd : Int) (buffer : List Char) (count : Nat) :
    Except Int Nat × SimOS :=
  match s.descriptor fd with
  | none => (Except.error EBADF, s)
  | some (path, offset) =>
    if (buffer.take count).length < count then (Except.error EFAULT, s)
    else
      let overwrite (content : List Char) : List Char :=
        content.take offset ++ buffer.take count ++ content.drop (offset + count)
      let files1 := s.files.map (fun entry =>
        if entry.1 = path then
          (entry.1, { st_mode := entry.2.st_mode, content := overwrite entry.2.content })
        else entry)
      (Except.ok count, SimOS.seek { s with files := files1 } fd (offset + count))

def sim_close (s : SimOS) (fd : Int) : Except Int Unit × SimOS :=
  match s.descriptor fd with
  | none => (Except.error EBADF, s)
  | some _ => (Except.ok (), { s with fds := s.fds.filter (fun entry => entry.1 ≠ fd) })

def sim_os : FileOps SimOS :=
  { stat := fun s path => sim_stat s.files path
    mkdir := fun s path mode =>
      match sim_mkdir s.files path mode with
      | Except.ok files1 => Except.ok { s with files := files1 }
      | Except.error e => Except.error e
    opendir := sim_opendir
    sys_open := sim_open
    fstat := sim_fstat
    read := sim_read
    write := sim_write
    close := sim_close }

/-- A world on the small filesystem with no descriptor open. -/
def sim_os_world (files : SimFS) : World SimOS :=
  { fs := { files := files, fds := [] }, ctx := errno_ctx_init, events := [] }

/-- The node of a directory and of a regular file, for concrete trees. -/
def sim_dir (perm : Nat) : SimNode := { st_mode := S_IFDIR ||| perm, content := [] }
def sim_file (perm : Nat) (content : List Char) : SimNode :=
  { st_mode := S_IFREG ||| perm, content := content }

/-- A source tree `s` holding one empty subdirectory `d`, next to an empty
destination directory `t`. -/
def tree_with_empty_subdirectory : SimFS :=
  [(['s'], sim_dir 0o755), (['s', '/', 'd'], sim_dir 0o700), (['t'], sim_dir 0o755)]

/-- A source tree `s` holding a subdirectory `d` with a file `f` in it, next
to an empty destination directory `t`. -/
def tree_with_nested_file : SimFS :=
  [(['s'], sim_dir 0o755), (['s', '/', 'd'], sim_dir 0o700),
   (['s', '/', 'd', '/', 'f'], sim_file 0o644 ['h', 'i']), (['t'], sim_dir 0o755)]

/-- A source tree `s` holding a file `f` only, next to an empty destination
directory `t`. -/
def tree_with_one_file : SimFS :=
  [(['s'], sim_dir 0o755), (['s', '/', 'f'], sim_file 0o640 ['h', 'i']), (['t'], sim_dir 0o755)]

/-- The local array of `ply_copy_file`, zero-filled. -/
def zero_buffer : List Char := List.replicate COPY_BUFFER_SIZE NUL

/-! ### A scripted source and a recording destination, for runs of the copy loop -/

/-- What one `read` on the source does: it delivers bytes (none at end of
file), or fails (returns `-1`) with an errno value. -/
inductive ScriptedRead where
  | data (bytes : List Char)
  | failure (errno : Int)
deriving DecidableEq, Repr

/-- What one `write` does: it takes the whole count, or fails with an errno
value. -/
inductive ScriptedWrite where
  | whole
  | failure (errno : Int)
deriving DecidableEq, Repr

/-- A `write` call as made: the descriptor, the count asked for, and the
bytes of the buffer that the count covers. -/
structure WriteRequest where
  fd : Int
  count : Nat
  bytes : List Char
deriving DecidableEq, Repr

/-- The state of the scripted system: the results of the `read` calls still
to come, those of the `write` calls still to come (a `write` beyond the list
takes the whole count), and the `write` calls made so far. -/
structure ScriptOS where
  reads : List ScriptedRead
  write_results : List ScriptedWrite
  requests : List WriteRequest
deriving DecidableEq, Repr

/-- The macro `ENOSYS`. -/
def ENOSYS : Int := 38

def script_read (s : ScriptOS) (_fd : Int) (count : Nat) : Except Int (List Char) × ScriptOS :=
  match s.reads with
  | [] => (Except.ok [], s)
  | ScriptedRead.data bytes :: rest => (Except.ok (bytes.take count), { s with reads := rest })
  | ScriptedRead.failure e :: rest => (Except.error e, { s with reads := rest })

def script_write (s : ScriptOS) (fd : Int) (buffer : List Char) (count : Nat) :
    Except Int Nat × ScriptOS :=
  let request : WriteRequest := { fd := fd, count := count, bytes := buffer.take count }
  match s.write_results with
  | [] => (Except.ok count, { s with requests := s.requests ++ [request] })
  | ScriptedWrite.whole :: rest =>
    (Except.ok count, { s with write_results := rest, requests := s.requests ++ [request] })
  | ScriptedWrite.failure e :: rest =>
    (Except.error e, { s with write_results := rest, requests := s.requests ++ [request] })

/-- The scripted system: `read` and `write` follow the script; the calls that
the copy loop does not make are not provided. -/
def script_os : FileOps ScriptOS :=
  { stat := fun _ _ => Except.error ENOSYS
    mkdir := fun _ _ _ => Except.error ENOSYS
    opendir := fun _ _ => Except.error ENOSYS
    sys_open := fun _ _ _ _ => Except.error ENOSYS
    fstat := fun _ _ => Except.error ENOSYS
    read := script_read
    write := script_write
    close := fun s _ => (Except.ok (), s) }

/-- A world on the scripted system with an empty errno stack. -/
def script_world (reads : List ScriptedRead) (write_results : List ScriptedWrite) :
    World ScriptOS :=
  { fs := { reads := reads, write_results := write_results, requests := [] }
    ctx := errno_ctx_init, events := [] }

/-- What a run of the copy loop shows: the result, the `write` calls made
(descriptor and count), the number of scripted reads not consumed, and
errno. -/
structure CopySeen where
  result : Bool
  asked : List (Int × Nat)
  reads_left : Nat
  errno : Int
deriving DecidableEq, Repr

def copy_seen (r : Outcome (Bool × World ScriptOS)) : Outcome CopySeen :=
  match r with
  | Outcome.done (b, w) =>
    Outcome.done { result := b
                   asked := w.fs.requests.map (fun q => (q.fd, q.count))
                   reads_left := w.fs.reads.length
                   errno := w.ctx.errno }
  | Outcome.assert_failed => Outcome.assert_failed
  | Outcome.undefined => Outcome.undefined
  | Outcome.pending => Outcome.pending

/-- The bytes of the `write` calls made in a finished run. -/
def bytes_written (r : Outcome (Bool × World ScriptOS)) : List (List Char) :=
  match r with
  | Outcome.done (_, w) => w.fs.requests.map (fun q => q.bytes)
  | _ => []

/-! ## Detaching a directory (`ply_detach_directory`) -/

/-- The macro `PLY_SUPER_SECRET_LAZY_UNMOUNT_FLAG` and the errno value `EBUSY`. -/
def PLY_SUPER_SECRET_LAZY_UNMOUNT_FLAG : Nat := 2
def EBUSY : Int := 16

/-- The system calls of `ply_detach_directory`, as made. -/
inductive DetachCall where
  | open_called (path : CStr) (flags : Nat)
  | umount2_called (path : CStr) (flags : Nat)
  | umount_called (path : CStr)
  | rmdir_called (path : CStr)
deriving DecidableEq, Repr

/-- What the system calls of one run of `ply_detach_directory` return and
leave in errno. -/
structure DetachScript where
  open_result : SysRet
  umount2_result : SysRet
  umount_result : SysRet
  rmdir_result : SysRet
deriving DecidableEq, Repr

/-- The sequence `ply_save_errno (); umount (directory); ply_restore_errno ();`. -/
def save_umount_restore (script : DetachScript) (c : ErrnoCtx) : Option ErrnoCtx :=
  match ply_save_errno c with
  | none => none
  | some c1 => ply_restore_errno (set_errno script.umount_result.errno c1)

/-- Embedding of `ply_detach_directory (directory)`: the `int` returned, the
errno context, and the system calls made.  `return false` in a function
returning `int` returns 0. -/
def ply_detach_directory (script : DetachScript) (directory : CStr) (c : ErrnoCtx) :
    Outcome (Int × ErrnoCtx × List DetachCall) :=
  let dir_fd := script.open_result.ret
  let c1 := set_errno script.open_result.errno c
  let calls1 := [DetachCall.open_called directory O_RDONLY]
  if dir_fd < 0 then
    match save_umount_restore script c1 with
    | none => Outcome.assert_failed
    | some c2 => Outcome.done (dir_fd, c2, calls1 ++ [DetachCall.umount_called directory])
  else
    let c2 := set_errno script.umount2_result.errno c1
    let calls2 :=
      calls1 ++ [DetachCall.umount2_called directory PLY_SUPER_SECRET_LAZY_UNMOUNT_FLAG]
    if script.umount2_result.ret < 0 then
      match save_umount_restore script c2 with
      | none => Outcome.assert_failed
      | some c3 => Outcome.done (0, c3, calls2 ++ [DetachCall.umount_called directory])
    else
      let c3 := set_errno script.rmdir_result.errno c2
      Outcome.done (dir_fd, c3, calls2 ++ [DetachCall.rmdir_called directory])

/-- What a run of `ply_detach_directory` shows: the value returned, errno,
the depth of the errno stack, and the system calls made. -/
structure DetachSeen where
  result : Int
  errno : Int
  depth : Nat
  calls : List DetachCall
deriving DecidableEq, Repr

def detach_seen (r : Outcome (Int × ErrnoCtx × List DetachCall)) : Outcome DetachSeen :=
  match r with
  | Outcome.done (ret, c, calls) =>
    Outcome.done { result := ret, errno := c.errno, depth := c.errno_stack_position,
                   calls := calls }
  | Outcome.assert_failed => Outcome.assert_failed
  | Outcome.undefined => Outcome.undefined
  | Outcome.pending => Outcome.pending

/-! ### A filesystem in which nothing can be reached -/

/-- The filesystem as a process finds it whose working directory (and root
directory) was removed: `stat` and `mkdir` fail with `ENOENT` on every path.
It has a single state. -/
def orphan_fs : FileSystem Unit :=
  { stat := fun _ _ => Except.error ENOENT
    mkdir := fun _ _ _ => Except.error ENOENT }

/-- A world on that filesystem with an empty errno stack. -/
def orphan_world : World Unit :=
  { fs := (), ctx := errno_ctx_init, events := [] }

/-! ## Listening on a Unix socket (`ply_open_unix_socket`, `ply_listen_to_unix_socket`) -/

/-- The macro `PLY_SOCKET_CONNECTION_BACKLOG`. -/
def PLY_SOCKET_CONNECTION_BACKLOG : Nat := 32

/-- The calls of `ply_listen_to_unix_socket` into the system and the C
library, as made. -/
inductive SocketCall where
  | socket_called
  | fcntl_called (fd : Int)
  | bind_called (fd : Int) (address : sockaddr_un) (address_size : Nat)
  | listen_called (fd : Int) (backlog : Nat)
  | fchmod_called (fd : Int) (mode : Nat)
  | close_called (fd : Int)
  | free_called
deriving DecidableEq, Repr

/-- What the calls of one run return and leave in errno (a call may change
errno even when it succeeds); `calloc_ok` says that `calloc` returned memory;
`free_errno` gives errno after `free` from errno before it. -/
structure SocketScript where
  socket_result : SysRet
  fcntl_result : SysRet
  calloc_ok : Bool
  bind_result : SysRet
  listen_result : SysRet
  fchmod_result : SysRet
  close_result : SysRet
  free_errno : Int → Int

/-- The errno context and the trace of the calls made so far. -/
structure SocketState where
  ctx : ErrnoCtx
  calls : List SocketCall

/-- The state after a call that left `errno_after` in errno. -/
def SocketState.call (st : SocketState) (c : SocketCall) (errno_after : Int) : SocketState :=
  { ctx := set_errno errno_after st.ctx, calls := st.calls ++ [c] }

/-- The state after `ply_save_errno ()`, if its assertion holds. -/
def SocketState.save (st : SocketState) : Option SocketState :=
  match ply_save_errno st.ctx with
  | none => none
  | some c1 => some { ctx := c1, calls := st.calls }

/-- The state after `ply_restore_errno ()`, if its assertion holds. -/
def SocketState.restore (st : SocketState) : Option SocketState :=
  match ply_restore_errno st.ctx with
  | none => none
  | some c1 => some { ctx := c1, calls := st.calls }

/-- The state after `free (address)`. -/
def SocketState.free (script : SocketScript) (st : SocketState) : SocketState :=
  st.call SocketCall.free_called (script.free_errno st.ctx.errno)

/-- The state after `close (fd)`. -/
def SocketState.close (script : SocketScript) (fd : Int) (st : SocketState) : SocketState :=
  st.call (SocketCall.close_called fd) script.close_result.errno

/-- The sequence `ply_save_errno (); close (fd); ply_restore_errno ();
return -1;`. -/
def close_and_fail (script : SocketScript) (fd : Int) (st : SocketState) :
    Outcome (Int × SocketState) :=
  match st.save with
  | none => Outcome.assert_failed
  | some st1 =>
    match (st1.close script fd).restore with
    | none => Outcome.assert_failed
    | some st2 => Outcome.done (-1, st2)

/-- The sequence `ply_save_errno (); free (address); close (fd);
ply_restore_errno (); return -1;`. -/
def free_close_and_fail (script : SocketScript) (fd : Int) (st : SocketState) :
    Outcome (Int × SocketState) :=
  match st.save with
  | none => Outcome.assert_failed
  | some st1 =>
    match ((st1.free script).close script fd).restore with
    | none => Outcome.assert_failed
    | some st2 => Outcome.done (-1, st2)

/-- Embedding of `ply_open_unix_socket (path)`; `path = none` is the null
pointer. -/
def ply_open_unix_socket (script : SocketScript) (path : Option CStr) (st : SocketState) :
    Outcome (Int × SocketState) :=
  match path with
  | none => Outcome.assert_failed
  | some _ =>
    let fd := script.socket_result.ret
    let st1 := st.call SocketCall.socket_called script.socket_result.errno
    if fd < 0 then Outcome.done (-1, st1)
    else
      let st2 := st1.call (SocketCall.fcntl_called fd) script.fcntl_result.errno
      if script.fcntl_result.ret < 0 then close_and_fail script fd st2
      else Outcome.done (fd, st2)

/-- The part of `ply_listen_to_unix_socket` after `bind` succeeded. -/
def listen_after_bind (script : SocketScript) (is_abstract : Bool) (fd : Int)
    (st : SocketState) : Outcome (Int × SocketState) :=
  let st1 := st.free script
  let st2 := st1.call (SocketCall.listen_called fd PLY_SOCKET_CONNECTION_BACKLOG)
    script.listen_result.errno
  if script.listen_result.ret < 0 then close_and_fail script fd st2
  else if ¬ is_abstract then
    let st3 := st2.call (SocketCall.fchmod_called fd 0o600) script.fchmod_result.errno
    if script.fchmod_result.ret < 0 then close_and_fail script fd st3
    else Outcome.done (fd, st3)
  else Outcome.done (fd, st2)

/-- Embedding of `ply_listen_to_unix_socket (path, is_abstract)`: the `int`
returned, the errno context and the calls made. -/
def ply_listen_to_unix_socket (script : SocketScript) (path : Option CStr)
    (is_abstract : Bool) (st : SocketState) : Outcome (Int × SocketState) :=
  match ply_open_unix_socket script path st with
  | Outcome.done (fd, st1) =>
    if fd < 0 then Outcome.done (-1, st1)
    else
      match create_unix_address_from_path path is_abstract true script.calloc_ok with
      | Outcome.done (address, address_size) =>
        let st2 := st1.call (SocketCall.bind_called fd address (address_size.getD 0))
          script.bind_result.errno
        if script.bind_result.ret < 0 then free_close_and_fail script fd st2
        else listen_after_bind script is_abstract fd st2
      | Outcome.assert_failed => Outcome.assert_failed
      | Outcome.undefined => Outcome.undefined
      | Outcome.pending => Outcome.pending
  | Outcome.assert_failed => Outcome.assert_failed
  | Outcome.undefined => Outcome.undefined
  | Outcome.pending => Outcome.pending

/-- The descriptors passed to `close`, in order. -/
def closed_descriptors : List SocketCall → List Int
  | [] => []
  | SocketCall.close_called fd :: rest => fd :: closed_descriptors rest
  | _ :: rest => closed_descriptors rest

/-- The errno left by the first step after `socket` that fails, among
`fcntl`, `bind`, `listen` and, for a socket that is not abstract, `fchmod`;
`none` when none of them fails. -/
def failing_step (script : SocketScript) (is_abstract : Bool) : Option Int :=
  if script.fcntl_result.ret < 0 then some script.fcntl_result.errno
  else if script.bind_result.ret < 0 then some script.bind_result.errno
  else if script.listen_result.ret < 0 then some script.listen_result.errno
  else if ¬ is_abstract ∧ script.fchmod_result.ret < 0 then some script.fchmod_result.errno
  else none

/-- What a run of `ply_listen_to_unix_socket` shows. -/
structure SocketSeen where
  result : Int
  errno : Int
  depth : Nat
  calls : List SocketCall
deriving DecidableEq, Repr

def socket_seen (r : Outcome (Int × SocketState)) : Outcome SocketSeen :=
  match r with
  | Outcome.done (ret, st) =>
    Outcome.done { result := ret, errno := st.ctx.errno,
                   depth := st.ctx.errno_stack_position, calls := st.calls }
  | Outcome.assert_failed => Outcome.assert_failed
  | Outcome.undefined => Outcome.undefined
  | Outcome.pending => Outcome.pending

/-- A script for concrete runs: `socket` returns the descriptor 3, `bind`
fails with `EADDRINUSE` (98), `free` and `close` leave other values in errno. -/
def script_bind_fails : SocketScript :=
  { socket_result := ⟨3, 0⟩, fcntl_result := ⟨0, 0⟩, calloc_ok := true,
    bind_result := ⟨-1, 98⟩, listen_result := ⟨0, 0⟩, fchmod_result := ⟨0, 0⟩,
    close_result := ⟨-1, EIO⟩, free_errno := fun _ => EINTR }

/-- A state with an empty errno stack and no call made. -/
def socket_state_init : SocketState :=
  { ctx := errno_ctx_init, calls := [] }

/-! ### A filesystem that resolves `.` and `..` -/

theorem restore_all_append (ks1 ks2 : List Int) (c : ErrnoCtx) :
    restore_all (ks1 ++ ks2) c =
      match restore_all ks1 c with
      | none => none
      | some (seen1, c1) =>
        match restore_all ks2 c1 with
        | none => none
        | some (seen2, c2) => some (seen1 ++ seen2, c2) := by
  induction ks1 generalizing c with
  | nil =>
    simp only [List.nil_append, restore_all]
    cases restore_all ks2 c with
    | none => rfl
    | some r => rfl
  | cons k ks1 ih =>
    rw [List.cons_append]
    rw [restore_all.eq_2 c k ks1, restore_all.eq_2 c k (ks1 ++ ks2)]
    cases h1 : ply_restore_errno (set_errno k c) with
    | none => rfl
    | some c1 =>
      simp only [ih c1]
      cases h2 : restore_all ks1 c1 with
      | none => rfl
      | some r =>
        obtain ⟨seen1, c2⟩ := r
        simp only
        cases h3 : restore_all ks2 c2 with
        | none => rfl
        | some r2 => rfl

/-- Saves followed by as many restores: the restores see the saved values in
reverse order, and the position and every older stack slot are as before. -/
theorem save_restore_lifo (es : List Int) :
    ∀ (ks : List Int) (c : ErrnoCtx),
      c.errno_stack_position + es.length ≤ PLY_ERRNO_STACK_SIZE →
      ks.length = es.length →
      ∃ c1 c2, save_all es c = some c1 ∧
        restore_all ks c1 = some (es.reverse, c2) ∧
        c2.errno_stack_position = c.errno_stack_position ∧
        ∀ i, i < c.errno_stack_position → c2.errno_stack i = c.errno_stack i := by
  induction es with
  | nil =>
    intro ks c _ hlen
    have hks : ks = [] := List.length_eq_zero.mp hlen
    subst hks
    exact ⟨c, c, rfl, rfl, rfl, fun _ _ => rfl⟩
  | cons e es ih =>
    intro ks c hcap hlen
    simp only [List.length_cons] at hcap hlen
    have hne : ks ≠ [] := by
      intro h
      rw [h] at hlen
      simp at hlen
    obtain ⟨ks1, k, rfl⟩ : ∃ ks1 k, ks = ks1 ++ [k] :=
      ⟨ks.dropLast, ks.getLast hne, (List.dropLast_append_getLast hne).symm⟩
    have hlen1 : ks1.length = es.length := by
      simp only [List.length_append, List.length_singleton] at hlen
      omega
    have hpos : c.errno_stack_position < PLY_ERRNO_STACK_SIZE := by omega
    let cs : ErrnoCtx :=
      { errno := e
        errno_stack := Function.update c.errno_stack c.errno_stack_position e
        errno_stack_position := c.errno_stack_position + 1 }
    have hsave : ply_save_errno (set_errno e c) = some cs := by
      simp only [ply_save_errno, set_errno, hpos, if_true, cs]
    obtain ⟨c1, c2, h1, h2, h3, h4⟩ := ih ks1 cs (by simp only [cs]; omega) hlen1
    have hslot : c2.errno_stack c.errno_stack_position = e := by
      rw [h4 c.errno_stack_position (by simp only [cs]; omega)]
      simp only [cs, Function.update_same]
    have hc2pos : c2.errno_stack_position = c.errno_stack_position + 1 := h3
    refine ⟨c1, { errno := e, errno_stack := c2.errno_stack,
                  errno_stack_position := c.errno_stack_position }, ?_, ?_, rfl, ?_⟩
    · simp only [save_all, hsave, h1]
    · rw [restore_all_append, h2]
      simp only [restore_all, ply_restore_errno, set_errno, hc2pos,
        Nat.add_sub_cancel, gt_iff_lt, Nat.succ_pos, if_true, hslot,
        List.reverse_cons]
    · intro i hi
      rw [h4 i (by simp only [cs]; omega)]
      simp only [cs]
      exact Function.update_noteq (Nat.ne_of_lt hi) _ _

/-! ### Lemmas on the transfer loop -/

theorem to_size_t_of_lt (i : Int) (h0 : 0 ≤ i) (h1 : i < (SIZE_MOD : Int)) :
    to_size_t i = i.toNat := by
  unfold to_size_t
  rw [Int.emod_eq_of_lt h0 h1]

/-- What the loop guarantees when every positive count fits the outstanding
bytes: the two counters still add up to the request, the total is the sum of
the positive counts consumed, and at least one call was made. -/
theorem transfer_loop_spec (rs : List SysRet) :
    ∀ (left total calls : Nat) (x : LoopExit),
      left + total < SIZE_MOD → counts_fit left rs →
      transfer_loop left total calls rs = some x →
      x.bytes_left + x.total_bytes = left + total ∧
      x.total_bytes = total + positive_sum (rs.take (x.calls - calls)) ∧
      calls < x.calls := by
  induction rs with
  | nil => intro left total calls x _ _ h; simp [transfer_loop] at h
  | cons r rs ih =>
    intro left total calls x hlt hfit h
    rw [transfer_loop] at h
    by_cases hpos : r.ret > 0
    · simp only [hpos, if_true] at h
      simp only [counts_fit, hpos, if_true] at hfit
      obtain ⟨hle, hfit1⟩ := hfit
      have hmod : (SIZE_MOD : Int) = 18446744073709551616 := by norm_num [SIZE_MOD]
      have hmodn : SIZE_MOD = 18446744073709551616 := by norm_num [SIZE_MOD]
      have ht : to_size_t ((total : Int) + r.ret) = total + r.ret.toNat := by
        rw [to_size_t_of_lt _ (by omega) (by omega)]; omega
      have hl : to_size_t ((left : Int) - r.ret) = left - r.ret.toNat := by
        rw [to_size_t_of_lt _ (by omega) (by omega)]; omega
      rw [ht, hl] at h
      by_cases hrem : left - r.ret.toNat > 0
      · simp only [hrem, if_true] at h
        obtain ⟨h1, h2, h3⟩ := ih _ _ _ x (by omega) hfit1 h
        refine ⟨by omega, ?_, by omega⟩
        have hc : x.calls - calls = (x.calls - (calls + 1)) + 1 := by omega
        rw [hc, List.take_succ_cons, positive_sum, h2]
        simp only [hpos, if_true]
        omega
      · simp only [hrem, if_false, Option.some.injEq] at h
        subst h
        refine ⟨by simp only; omega, ?_, by simp only; omega⟩
        simp only [Nat.add_sub_cancel_left, List.take_succ_cons, List.take_zero, positive_sum,
          hpos, if_true, Nat.add_zero]
    · simp only [hpos, if_false] at h
      simp only [counts_fit, hpos, if_false] at hfit
      by_cases he : r.errno ≠ EINTR
      · rw [if_pos he] at h
        simp only [Option.some.injEq] at h
        subst h
        refine ⟨rfl, ?_, by simp only; omega⟩
        simp only [Nat.add_sub_cancel_left, List.take_succ_cons, List.take_zero, positive_sum,
          hpos, if_false, Nat.add_zero]
      · rw [if_neg he] at h
        by_cases hrem : left > 0
        · simp only [hrem, if_true] at h
          obtain ⟨h1, h2, h3⟩ := ih _ _ _ x hlt hfit h
          refine ⟨h1, ?_, by omega⟩
          have hc : x.calls - calls = (x.calls - (calls + 1)) + 1 := by omega
          rw [hc, List.take_succ_cons, positive_sum, h2]
          simp only [hpos, if_false, Nat.zero_add]
        · simp only [hrem, if_false, Option.some.injEq] at h
          subst h
          refine ⟨rfl, ?_, by simp only; omega⟩
          simp only [Nat.add_sub_cancel_left, List.take_succ_cons, List.take_zero, positive_sum,
            hpos, if_false, Nat.add_zero]

/-- The loop comes to an end on every list of results that holds a
non-positive result whose errno is not `EINTR`. -/
theorem transfer_loop_returns (rs : List SysRet) :
    ∀ (left total calls : Nat),
      (∃ r ∈ rs, r.ret ≤ 0 ∧ r.errno ≠ EINTR) →
      ∃ x, transfer_loop left total calls rs = some x := by
  induction rs with
  | nil => intro _ _ _ h; obtain ⟨r, hr, _⟩ := h; simp at hr
  | cons r rs ih =>
    intro left total calls hex
    rw [transfer_loop]
    by_cases hpos : r.ret > 0
    · simp only [hpos, if_true]
      have hex1 : ∃ r1 ∈ rs, r1.ret ≤ 0 ∧ r1.errno ≠ EINTR := by
        obtain ⟨r1, hr1, h1, h2⟩ := hex
        rcases List.mem_cons.mp hr1 with rfl | hmem
        · omega
        · exact ⟨r1, hmem, h1, h2⟩
      split
      · exact ih _ _ _ hex1
      · exact ⟨_, rfl⟩
    · simp only [hpos, if_false]
      by_cases he : r.errno ≠ EINTR
      · rw [if_pos he]; exact ⟨_, rfl⟩
      · rw [if_neg he]
        have hex1 : ∃ r1 ∈ rs, r1.ret ≤ 0 ∧ r1.errno ≠ EINTR := by
          obtain ⟨r1, hr1, h1, h2⟩ := hex
          rcases List.mem_cons.mp hr1 with rfl | hmem
          · exact absurd h2 he
          · exact ⟨r1, hmem, h1, h2⟩
        split
        · exact ih _ _ _ hex1
        · exact ⟨_, rfl⟩

/-- The loop comes to an end on every non-empty list of results whose
positive counts fit and add up to the outstanding bytes. -/
theorem transfer_loop_returns_of_sum (rs : List SysRet) :
    ∀ (left total calls : Nat),
      left + total < SIZE_MOD → counts_fit left rs → rs ≠ [] → positive_sum rs = left →
      ∃ x, transfer_loop left total calls rs = some x := by
  induction rs with
  | nil => intro _ _ _ _ _ h; exact absurd rfl h
  | cons r rs ih =>
    intro left total calls hlt hfit _ hsum
    have hne : ∀ m, 0 < m → positive_sum rs = m → rs ≠ [] := by
      intro m hm hs hnil
      rw [hnil, positive_sum] at hs
      omega
    rw [transfer_loop]
    rw [positive_sum] at hsum
    by_cases hpos : r.ret > 0
    · simp only [hpos, if_true] at hsum ⊢
      simp only [counts_fit, hpos, if_true] at hfit
      obtain ⟨hle, hfit1⟩ := hfit
      have hmod : (SIZE_MOD : Int) = 18446744073709551616 := by norm_num [SIZE_MOD]
      have hmodn : SIZE_MOD = 18446744073709551616 := by norm_num [SIZE_MOD]
      have ht : to_size_t ((total : Int) + r.ret) = total + r.ret.toNat := by
        rw [to_size_t_of_lt _ (by omega) (by omega)]; omega
      have hl : to_size_t ((left : Int) - r.ret) = left - r.ret.toNat := by
        rw [to_size_t_of_lt _ (by omega) (by omega)]; omega
      rw [ht, hl]
      split
      · rename_i hrem
        exact ih _ _ _ (by omega) hfit1 (hne _ hrem (by omega)) (by omega)
      · exact ⟨_, rfl⟩
    · simp only [hpos, if_false, Nat.zero_add] at hsum ⊢
      simp only [counts_fit, hpos, if_false] at hfit
      by_cases he : r.errno ≠ EINTR
      · rw [if_pos he]; exact ⟨_, rfl⟩
      · rw [if_neg he]
        split
        · rename_i hrem
          exact ih _ _ _ hlt hfit (hne _ hrem hsum) hsum
        · exact ⟨_, rfl⟩

/-- Starting the call counter one higher only shifts the reported count. -/
theorem transfer_loop_calls_succ (rs : List SysRet) :
    ∀ (left total calls : Nat),
      transfer_loop left total (calls + 1) rs =
        (transfer_loop left total calls rs).map
          (fun x => { x with calls := x.calls + 1 }) := by
  induction rs with
  | nil => intro _ _ _; rfl
  | cons r rs ih =>
    intro left total calls
    rw [transfer_loop, transfer_loop]
    by_cases hpos : r.ret > 0
    · simp only [hpos, if_true]
      split
      · exact ih _ _ _
      · rfl
    · simp only [hpos, if_false]
      by_cases he : r.errno ≠ EINTR
      · rw [if_pos he, if_pos he]; rfl
      · rw [if_neg he, if_neg he]
        split
        · exact ih _ _ _
        · rfl

theorem to_size_t_to_ssize_t (t : Nat) (ht : t < SIZE_MOD) :
    to_size_t (to_ssize_t t) = t := by
  have hmodn : SIZE_MOD = 18446744073709551616 := by norm_num [SIZE_MOD]
  unfold to_size_t to_ssize_t
  rw [hmodn] at ht ⊢
  push_cast
  split <;> omega

/-- Below `SIZE_MAX` the result of `ply_read` is true only when the loop left
no byte unread: a request of `1 <= n < SIZE_MAX` bytes is reported successful
exactly when `n` bytes were read. -/
theorem ply_read_below_size_max (n : Nat) (rs : List SysRet) (b : Bool) (x : LoopExit)
    (hn : n < SIZE_MAX) (hfit : counts_fit n rs)
    (h : ply_read n rs = Outcome.done (b, x)) :
    (b = true ↔ x.bytes_left = 0) ∧ x.bytes_left + x.total_bytes = n := by
  have hmodn : SIZE_MOD = 18446744073709551616 := by norm_num [SIZE_MOD]
  have hmax : SIZE_MAX = 18446744073709551615 := by norm_num [SIZE_MAX, SIZE_MOD]
  unfold ply_read at h
  by_cases h0 : n = 0
  · simp [h0] at h
  · rw [if_neg h0] at h
    unfold ply_read_some_bytes at h
    cases hx : transfer_loop n 0 0 rs with
    | none => rw [hx] at h; simp at h
    | some y =>
      rw [hx] at h
      simp only [Outcome.done.injEq, Prod.mk.injEq] at h
      obtain ⟨hb, hy⟩ := h
      subst hy
      obtain ⟨h1, _, _⟩ := transfer_loop_spec rs n 0 0 y (by omega) hfit hx
      refine ⟨?_, by omega⟩
      rw [← hb, decide_eq_true_iff]
      by_cases hc : y.bytes_left > 0 ∧ y.errno ≠ EAGAIN
      · rw [if_pos hc]
        have hm1 : to_size_t (-1) = SIZE_MAX := by decide
        rw [hm1, to_size_t_to_ssize_t _ (by omega)]
        omega
      · rw [if_neg hc, to_size_t_to_ssize_t _ (by omega)]
        omega

/-! ### Lemmas on the descriptor table functions -/

theorem strtol_result_end_not_null (negative : Bool) (start : Nat) (digits : List Char) :
    (strtol_result negative start digits).2 ≠ none := by
  unfold strtol_result
  split <;> simp

theorem strtol_end_not_null (s : CStr) : (strtol s).2 ≠ none :=
  strtol_result_end_not_null _ _ _

/-- The loop of `ply_close_open_fds` takes the `continue` after `strtol` for
every entry that does not start with a dot: it closes nothing. -/
theorem close_open_fds_loop_closes_nothing (entries : List CStr) :
    ∀ (opendir_fd : Int) (closed : List Int),
      close_open_fds_loop opendir_fd closed entries = Outcome.done (true, closed) := by
  induction entries with
  | nil => intro _ _; rfl
  | cons d_name entries ih =>
    intro opendir_fd closed
    rw [close_open_fds_loop]
    split
    · exact ih _ _
    · have hend := strtol_end_not_null d_name
      rcases hs : strtol d_name with ⟨value, end_pointer⟩
      rw [hs] at hend
      simp only at hend ⊢
      rw [if_pos hend]
      exact ih _ _

/-- With a finite limit that is non-negative as an `int`, `ply_close_all_fds`
calls `close` on exactly the descriptors below the limit, in order. -/
theorem ply_close_all_fds_of_limit (rlim_cur : Nat) (listing : Option (List CStr))
    (hfin : rlim_cur ≠ RLIM_INFINITY) (hnn : 0 ≤ to_int rlim_cur) :
    ply_close_all_fds (some rlim_cur) listing =
      Outcome.done ((List.range (to_int rlim_cur).toNat).map (fun fd => (fd : Int))) := by
  unfold ply_close_all_fds ply_get_max_open_fds
  simp only [hfin, if_false]
  rw [if_neg (by omega)]
  rfl


/-! ### Lemmas on `ply_create_directory` -/

theorem ply_directory_exists_spec {σ : Type} (os : FileSystem σ) (dir : CStr) (w : World σ) :
    (ply_directory_exists os dir w).1 = is_directory os w.fs dir ∧
    (ply_directory_exists os dir w).2.fs = w.fs ∧
    (ply_directory_exists os dir w).2.events = w.events ∧
    ((ply_directory_exists os dir w).1 = true → (ply_directory_exists os dir w).2 = w) := by
  unfold ply_directory_exists is_directory
  cases os.stat w.fs dir with
  | error e => exact ⟨rfl, rfl, rfl, fun h => by simp at h⟩
  | ok m => exact ⟨rfl, rfl, rfl, fun _ => rfl⟩

theorem ply_file_exists_spec {σ : Type} (os : FileSystem σ) (file : CStr) (w : World σ) :
    (ply_file_exists os file w).1 = is_regular_file os w.fs file ∧
    (ply_file_exists os file w).2.fs = w.fs ∧
    (ply_file_exists os file w).2.events = w.events ∧
    ((ply_file_exists os file w).1 = true → (ply_file_exists os file w).2 = w) := by
  unfold ply_file_exists is_regular_file
  cases os.stat w.fs file with
  | error e => exact ⟨rfl, rfl, rfl, fun h => by simp at h⟩
  | ok m => exact ⟨rfl, rfl, rfl, fun _ => rfl⟩

theorem SimFS.lookup_append_of_some (s t : SimFS) (path : CStr) (node : SimNode)
    (h : s.lookup path = some node) : SimFS.lookup (s ++ t) path = some node := by
  unfold SimFS.lookup at h ⊢
  rw [List.find?_append]
  cases hf : List.find? (fun entry => decide (entry.1 = path)) s with
  | none => rw [hf] at h; simp at h
  | some entry => rw [hf] at h; simpa using h

/-- The loop only looks at the results of the calls it makes: it ends in the
same way on the list cut after the last call made. -/
theorem transfer_loop_take (rs : List SysRet) :
    ∀ (left total calls : Nat) (x : LoopExit),
      transfer_loop left total calls rs = some x →
      transfer_loop left total calls (rs.take (x.calls - calls)) = some x ∧ calls < x.calls := by
  induction rs with
  | nil => intro left total calls x h; simp [transfer_loop] at h
  | cons r rs ih =>
    intro left total calls x h
    rw [transfer_loop] at h
    have hone : ∀ y : LoopExit, y.calls = calls + 1 →
        List.take (y.calls - calls) (r :: rs) = [r] := by
      intro y hy
      rw [hy, Nat.add_sub_cancel_left, List.take_succ_cons, List.take_zero]
    have hmore : ∀ y : LoopExit, calls + 1 < y.calls →
        List.take (y.calls - calls) (r :: rs) = r :: List.take (y.calls - (calls + 1)) rs := by
      intro y hy
      have hc : y.calls - calls = (y.calls - (calls + 1)) + 1 := by omega
      rw [hc, List.take_succ_cons]
    by_cases hpos : r.ret > 0
    · simp only [hpos, if_true] at h
      by_cases hrem : to_size_t ((left : Int) - r.ret) > 0
      · simp only [hrem, if_true] at h
        obtain ⟨h1, h2⟩ := ih _ _ _ x h
        refine ⟨?_, by omega⟩
        rw [hmore x h2, transfer_loop]
        simp only [hpos, if_true, hrem]
        exact h1
      · simp only [hrem, if_false, Option.some.injEq] at h
        subst h
        refine ⟨?_, by simp only; omega⟩
        rw [hone _ rfl, transfer_loop]
        simp only [hpos, if_true, hrem, if_false]
    · simp only [hpos, if_false] at h
      by_cases he : r.errno ≠ EINTR
      · rw [if_pos he] at h
        simp only [Option.some.injEq] at h
        subst h
        refine ⟨?_, by simp only; omega⟩
        rw [hone _ rfl, transfer_loop]
        simp only [hpos, if_false]
        rw [if_pos he]
      · rw [if_neg he] at h
        by_cases hrem : left > 0
        · simp only [hrem, if_true] at h
          obtain ⟨h1, h2⟩ := ih _ _ _ x h
          refine ⟨?_, by omega⟩
          rw [hmore x h2, transfer_loop]
          simp only [hpos, if_false]
          rw [if_neg he]
          simp only [hrem, if_true]
          exact h1
        · simp only [hrem, if_false, Option.some.injEq] at h
          subst h
          refine ⟨?_, by simp only; omega⟩
          rw [hone _ rfl, transfer_loop]
          simp only [hpos, if_false]
          rw [if_neg he]
          simp only [hrem, if_false]


/-! ### Lemmas on the socket address -/

/-- For every path text shorter than the `sun_path` field, the two `strncpy`
calls stay inside the field and leave the layout of the specification. -/
theorem fill_sun_path_layout (text : CStr) (is_abstract : Bool)
    (hfit : strlen text < SIZEOF_SUN_PATH) :
    fill_sun_path text is_abstract = some (sun_path_layout text is_abstract) ∧
    (sun_path_layout text is_abstract).length = SIZEOF_SUN_PATH := by
  unfold strlen SIZEOF_SUN_PATH at hfit
  have htake : List.take 107 text = text := List.take_of_length_le (by omega)
  cases is_abstract with
  | false =>
    constructor
    · simp only [fill_sun_path, sun_path_layout, strncpy, SIZEOF_SUN_PATH, strlen,
        Bool.false_eq_true, not_false_eq_true, if_true, if_false, List.length_replicate,
        List.take_zero, List.nil_append, htake, List.drop_replicate, Nat.zero_add,
        Nat.reduceSub, Nat.reduceLeDiff, Nat.sub_zero, List.append_assoc,
        Option.some.injEq, List.append_cancel_left_eq]
      rw [← List.replicate_add]
      congr 1
      omega
    · simp only [sun_path_layout, SIZEOF_SUN_PATH, strlen, Bool.false_eq_true, if_false,
        List.nil_append, List.length_append, List.length_replicate]
      omega
  | true =>
    constructor
    · simp only [fill_sun_path, sun_path_layout, strncpy, SIZEOF_SUN_PATH, strlen,
        not_true_eq_false, if_true, if_false, List.length_replicate, htake,
        List.take_replicate, List.drop_replicate, Nat.reduceSub, Nat.reduceAdd,
        Nat.reduceLeDiff, Nat.le_refl, List.append_assoc, Option.some.injEq]
      simp only [List.replicate, Nat.min_def, List.append_nil, List.singleton_append,
        List.cons_append, List.nil_append, Nat.reduceLeDiff, if_true]
      congr 2
      congr 1
      omega
    · simp only [sun_path_layout, SIZEOF_SUN_PATH, strlen, if_true,
        List.length_append, List.length_replicate, List.length_singleton]
      omega


/-! ### Lemmas on the copy loop -/

/-- A failed `read` in the loop of `ply_copy_file`, whatever its errno: the
`-1` becomes `SIZE_MAX` in the `size_t` variable `bytes_read`, neither test
of the loop holds for it, and `ply_write` is called with that count. -/
theorem copy_file_loop_of_read_failure {σ : Type} (os : FileOps σ)
    (source_fd destination_fd : Int) (fuel : Nat) (buffer : List Char) (w : World σ)
    (e : Int) (s1 : σ)
    (h : os.read w.fs source_fd COPY_BUFFER_SIZE = (Except.error e, s1)) :
    copy_file_loop os source_fd destination_fd (fuel + 1) buffer w =
      match ply_write_on os (fuel + 1) destination_fd buffer SIZE_MAX
          ((w.with_fs s1).with_errno e) with
      | Outcome.done (true, w2) => copy_file_loop os source_fd destination_fd fuel buffer w2
      | Outcome.done (false, w2) => Outcome.done (false, w2)
      | Outcome.assert_failed => Outcome.assert_failed
      | Outcome.undefined => Outcome.undefined
      | Outcome.pending => Outcome.pending := by
  rw [copy_file_loop, h]
  have hmax : to_size_t (-1) = SIZE_MAX := by decide
  have hne : SIZE_MAX ≠ 0 := by decide
  simp only [hmax, hne, if_false, World.after]

/-- A `read` at end of file ends the loop of `ply_copy_file` by `break`. -/
theorem copy_file_loop_of_end_of_file {σ : Type} (os : FileOps σ)
    (source_fd destination_fd : Int) (fuel : Nat) (buffer : List Char) (w : World σ) (s1 : σ)
    (h : os.read w.fs source_fd COPY_BUFFER_SIZE = (Except.ok [], s1)) :
    copy_file_loop os source_fd destination_fd (fuel + 1) buffer w =
      Outcome.done (true, w.with_fs s1) := by
  rw [copy_file_loop, h]
  have hz : to_size_t ((([] : List Char).length : Nat) : Int) = 0 := by decide
  simp only [hz, if_true, World.after]

/-- A `read` of `k` bytes, `1 <= k <= 4096`, hands the buffer with those
bytes in front, and the count `k`, to `ply_write`. -/
theorem copy_file_loop_of_data {σ : Type} (os : FileOps σ)
    (source_fd destination_fd : Int) (fuel : Nat) (buffer : List Char) (w : World σ)
    (bytes : List Char) (s1 : σ)
    (hk : 1 ≤ bytes.length) (hk1 : bytes.length ≤ COPY_BUFFER_SIZE)
    (h : os.read w.fs source_fd COPY_BUFFER_SIZE = (Except.ok bytes, s1)) :
    copy_file_loop os source_fd destination_fd (fuel + 1) buffer w =
      match ply_write_on os (fuel + 1) destination_fd (bytes ++ buffer.drop bytes.length)
          bytes.length (w.with_fs s1) with
      | Outcome.done (true, w2) =>
        copy_file_loop os source_fd destination_fd fuel (bytes ++ buffer.drop bytes.length) w2
      | Outcome.done (false, w2) => Outcome.done (false, w2)
      | Outcome.assert_failed => Outcome.assert_failed
      | Outcome.undefined => Outcome.undefined
      | Outcome.pending => Outcome.pending := by
  rw [copy_file_loop, h]
  have hmod : (SIZE_MOD : Int) = 18446744073709551616 := by norm_num [SIZE_MOD]
  have hsz : to_size_t ((bytes.length : Nat) : Int) = bytes.length := by
    unfold COPY_BUFFER_SIZE at hk1
    rw [to_size_t_of_lt _ (by omega) (by omega)]
    omega
  have hne : bytes.length ≠ 0 := by omega
  simp only [hsz, hne, if_false, World.after]


/-! ### Lemmas on `ply_detach_directory` -/

/-- When `open` fails, `ply_detach_directory` returns the negative value that
`open` returned, with the errno that `open` left, provided the errno stack
has room for one entry. -/
theorem ply_detach_directory_of_open_failure (script : DetachScript) (directory : CStr)
    (c : ErrnoCtx) (hroom : c.errno_stack_position < PLY_ERRNO_STACK_SIZE)
    (hopen : script.open_result.ret < 0) :
    ∃ c1 calls, ply_detach_directory script directory c
        = Outcome.done (script.open_result.ret, c1, calls) ∧
      c1.errno = script.open_result.errno ∧
      c1.errno_stack_position = c.errno_stack_position := by
  unfold ply_detach_directory save_umount_restore ply_save_errno ply_restore_errno
  simp only [hopen, if_true, set_errno, hroom, gt_iff_lt, Nat.succ_pos, Nat.add_sub_cancel,
    Function.update_same]
  exact ⟨_, _, rfl, rfl, rfl⟩

/-- When `open` and the lazy unmount succeed, `ply_detach_directory` returns
the descriptor that `open` returned. -/
theorem ply_detach_directory_of_success (script : DetachScript) (directory : CStr)
    (c : ErrnoCtx) (hopen : 0 ≤ script.open_result.ret)
    (humount : 0 ≤ script.umount2_result.ret) :
    ∃ c1 calls, ply_detach_directory script directory c
        = Outcome.done (script.open_result.ret, c1, calls) := by
  unfold ply_detach_directory
  have h1 : ¬ script.open_result.ret < 0 := by omega
  have h2 : ¬ script.umount2_result.ret < 0 := by omega
  simp only [h1, h2, if_false]
  exact ⟨_, _, rfl⟩

/-- When `open` succeeds and the lazy unmount fails, `ply_detach_directory`
returns 0, whatever descriptor `open` returned. -/
theorem ply_detach_directory_of_umount2_failure (script : DetachScript) (directory : CStr)
    (c : ErrnoCtx) (hroom : c.errno_stack_position < PLY_ERRNO_STACK_SIZE)
    (hopen : 0 ≤ script.open_result.ret) (humount : script.umount2_result.ret < 0) :
    ∃ c1 calls, ply_detach_directory script directory c = Outcome.done (0, c1, calls) ∧
      c1.errno = script.umount2_result.errno := by
  unfold ply_detach_directory save_umount_restore ply_save_errno ply_restore_errno
  have h1 : ¬ script.open_result.ret < 0 := by omega
  simp only [h1, humount, if_false, if_true, set_errno, hroom, gt_iff_lt, Nat.succ_pos,
    Nat.add_sub_cancel, Function.update_same]
  exact ⟨_, _, rfl, rfl⟩


/-! ### Lemmas on the recursion of `ply_create_directory` -/

theorem strrchr_lt (s : CStr) (c : Char) :
    ∀ i, strrchr s c = some i → i < s.length := by
  induction s with
  | nil => intro i h; simp [strrchr] at h
  | cons x xs ih =>
    intro i h
    rw [strrchr] at h
    cases hr : strrchr xs c with
    | some j =>
      rw [hr] at h
      simp only [Option.some.injEq] at h
      have := ih j hr
      simp only [List.length_cons]
      omega
    | none =>
      rw [hr] at h
      simp only at h
      split at h
      · simp only [Option.some.injEq] at h
        simp only [List.length_cons]
        omega
      · simp at h

theorem strrchr_none_iff (s : CStr) (c : Char) : strrchr s c = none ↔ c ∉ s := by
  induction s with
  | nil => simp [strrchr]
  | cons x xs ih =>
    rw [strrchr]
    cases hr : strrchr xs c with
    | some j =>
      have hmem : c ∈ xs := by
        by_contra hn
        rw [ih.mpr hn] at hr
        simp at hr
      simp [hmem]
    | none =>
      have hn : c ∉ xs := ih.mp hr
      by_cases hx : x = c
      · simp [hx]
      · have hx1 : ¬ c = x := fun h => hx h.symm
        simp [hx, hx1, hn]

theorem save_free_restore_ne_pending {σ : Type} (free_errno : Int → Int) (w : World σ) :
    save_free_restore free_errno w ≠ Outcome.pending ∧
    save_free_restore free_errno w ≠ Outcome.undefined := by
  unfold save_free_restore
  cases ply_save_errno w.ctx with
  | none => simp
  | some c1 =>
    simp only
    cases ply_restore_errno (set_errno (free_errno c1.errno) c1) with
    | none => simp
    | some c2 => simp

/-- The recursion of `ply_create_directory` is never deeper than the path is
long: with a bound above the length of the path the bound is not used up. -/
theorem create_directory_aux_ne_pending {σ : Type} (os : FileSystem σ)
    (free_errno : Int → Int) :
    ∀ (fuel : Nat) (directory : CStr) (w : World σ),
      strlen directory < fuel →
      ply_create_directory_aux os free_errno fuel directory w ≠ Outcome.pending := by
  intro fuel
  induction fuel with
  | zero => intro directory w h; omega
  | succ fuel ih =>
    intro directory w hlen h
    rw [ply_create_directory_aux] at h
    by_cases hd : directory = []
    · simp [hd] at h
    · simp only [hd, if_false] at h
      rcases hde : ply_directory_exists os directory
        (w.record (Event.create_directory_called directory)) with ⟨b1, wa⟩
      rw [hde] at h
      cases b1 with
      | true => simp at h
      | false =>
        simp only at h
        rcases hfe : ply_file_exists os directory wa with ⟨b2, wb⟩
        rw [hfe] at h
        cases b2 with
        | true => simp at h
        | false =>
          simp only at h
          cases hmk : os.mkdir (wb.record (Event.mkdir_called directory 0o755)).fs
              directory 0o755 with
          | ok fs4 => rw [hmk] at h; simp at h
          | error e =>
            rw [hmk] at h
            simp only at h
            by_cases he : e = ENOENT
            · simp only [he, if_true] at h
              cases hsr : strrchr directory '/' with
              | none => rw [hsr] at h; simp at h
              | some i =>
                rw [hsr] at h
                simp only at h
                have hlt := strrchr_lt directory '/' i hsr
                have hfuel : strlen (List.take i directory) < fuel := by
                  simp only [strlen, List.length_take] at hlen ⊢
                  omega
                cases hrc : ply_create_directory_aux os free_errno fuel (List.take i directory)
                    ((wb.record (Event.mkdir_called directory 0o755)).with_errno ENOENT) with
                | assert_failed => rw [hrc] at h; simp at h
                | undefined => rw [hrc] at h; simp at h
                | pending => exact ih _ _ hfuel hrc
                | done r =>
                  obtain ⟨b5, w5⟩ := r
                  rw [hrc] at h
                  cases b5 with
                  | false =>
                    simp only at h
                    cases hsf : save_free_restore free_errno w5 with
                    | assert_failed => rw [hsf] at h; simp at h
                    | undefined => rw [hsf] at h; simp at h
                    | pending => exact (save_free_restore_ne_pending _ _).1 hsf
                    | done w8 => rw [hsf] at h; simp at h
                  | true =>
                    simp only at h
                    cases hmk2 : os.mkdir (w5.record (Event.mkdir_called directory 0o755)).fs
                        directory 0o755 with
                    | ok fs7 =>
                      rw [hmk2] at h
                      simp only at h
                      cases hsf : save_free_restore free_errno
                          { fs := fs7, ctx := (w5.record (Event.mkdir_called directory 0o755)).ctx,
                            events := (w5.record (Event.mkdir_called directory 0o755)).events } with
                      | assert_failed => rw [hsf] at h; simp at h
                      | undefined => rw [hsf] at h; simp at h
                      | pending => exact (save_free_restore_ne_pending _ _).1 hsf
                      | done w8 => rw [hsf] at h; simp at h
                    | error e7 =>
                      rw [hmk2] at h
                      simp only at h
                      cases hsf : save_free_restore free_errno
                          ((w5.record (Event.mkdir_called directory 0o755)).with_errno e7) with
                      | assert_failed => rw [hsf] at h; simp at h
                      | undefined => rw [hsf] at h; simp at h
                      | pending => exact (save_free_restore_ne_pending _ _).1 hsf
                      | done w8 => rw [hsf] at h; simp at h
            · simp [he] at h

/-- When `mkdir` fails with `ENOENT` on a path that holds no separator,
`strrchr` returns the null pointer and `ply_create_directory` writes through
it: the behaviour is undefined. -/
theorem create_directory_undefined_without_separator {σ : Type} (os : FileSystem σ)
    (free_errno : Int → Int) (directory : CStr) (w : World σ)
    (hne : directory ≠ []) (hsep : '/' ∉ directory)
    (hnd : is_directory os w.fs directory = false)
    (hnf : is_regular_file os w.fs directory = false)
    (hmk : os.mkdir w.fs directory 0o755 = Except.error ENOENT) :
    ply_create_directory os free_errno directory w = Outcome.undefined := by
  unfold ply_create_directory
  rw [ply_create_directory_aux]
  simp only [hne, if_false]
  obtain ⟨hde1, hde2, -, -⟩ :=
    ply_directory_exists_spec os directory (w.record (Event.create_directory_called directory))
  rcases hde : ply_directory_exists os directory
    (w.record (Event.create_directory_called directory)) with ⟨b1, wa⟩
  rw [hde] at hde1 hde2
  simp only at hde1 hde2
  have hwa : wa.fs = w.fs := hde2
  have hb1 : b1 = false := by rw [hde1]; exact hnd
  subst hb1
  simp only
  obtain ⟨hfe1, hfe2, -, -⟩ := ply_file_exists_spec os directory wa
  rcases hfe : ply_file_exists os directory wa with ⟨b2, wb⟩
  rw [hfe] at hfe1 hfe2
  simp only at hfe1 hfe2
  have hwb : wb.fs = w.fs := hfe2.trans hwa
  have hb2 : b2 = false := by rw [hfe1, hwa]; exact hnf
  subst hb2
  simp only
  have hrec : (wb.record (Event.mkdir_called directory 0o755)).fs = wb.fs := rfl
  rw [hrec, hwb, hmk]
  simp only [if_true, (strrchr_none_iff directory '/').mpr hsep]

/-- When `mkdir` fails with `ENOENT` on a path whose only separator is its
first byte, the parent is the empty string and the recursive call of
`ply_create_directory` stops at its assertion `directory[0] != '\0'`. -/
theorem create_directory_assert_failed_of_leading_separator {σ : Type} (os : FileSystem σ)
    (free_errno : Int → Int) (directory : CStr) (w : World σ)
    (hne : directory ≠ []) (hsep : strrchr directory '/' = some 0)
    (hnd : is_directory os w.fs directory = false)
    (hnf : is_regular_file os w.fs directory = false)
    (hmk : os.mkdir w.fs directory 0o755 = Except.error ENOENT) :
    ply_create_directory os free_errno directory w = Outcome.assert_failed := by
  unfold ply_create_directory
  rw [ply_create_directory_aux]
  simp only [hne, if_false]
  obtain ⟨hde1, hde2, -, -⟩ :=
    ply_directory_exists_spec os directory (w.record (Event.create_directory_called directory))
  rcases hde : ply_directory_exists os directory
    (w.record (Event.create_directory_called directory)) with ⟨b1, wa⟩
  rw [hde] at hde1 hde2
  simp only at hde1 hde2
  have hwa : wa.fs = w.fs := hde2
  have hb1 : b1 = false := by rw [hde1]; exact hnd
  subst hb1
  simp only
  obtain ⟨hfe1, hfe2, -, -⟩ := ply_file_exists_spec os directory wa
  rcases hfe : ply_file_exists os directory wa with ⟨b2, wb⟩
  rw [hfe] at hfe1 hfe2
  simp only at hfe1 hfe2
  have hwb : wb.fs = w.fs := hfe2.trans hwa
  have hb2 : b2 = false := by rw [hfe1, hwa]; exact hnf
  subst hb2
  simp only
  have hrec : (wb.record (Event.mkdir_called directory 0o755)).fs = wb.fs := rfl
  rw [hrec, hwb, hmk]
  simp only [if_true, hsep, List.take_zero]
  obtain ⟨x, xs, rfl⟩ := List.exists_cons_of_ne_nil hne
  simp only [strlen, List.length_cons]
  rw [ply_create_directory_aux]
  simp only [if_true]

theorem orphan_fs_lawful : orphan_fs.Lawful := by
  refine ⟨?_⟩
  intro s s1 path mode h
  exact absurd h (by simp [orphan_fs])


/-! ### Lemmas on the filesystem that resolves `.` and `..` -/

theorem closed_descriptors_append (a b : List SocketCall) :
    closed_descriptors (a ++ b) = closed_descriptors a ++ closed_descriptors b := by
  induction a with
  | nil => rfl
  | cons c a ih =>
    cases c <;> simp [closed_descriptors, ih]

/-- The failure sequence around `close`: if it returns, it returns -1 with
errno and the depth of the errno stack as before it, after one `close`; and
it returns when the errno stack has room. -/
theorem close_and_fail_spec (script : SocketScript) (fd : Int) (st : SocketState) :
    (∀ ret st1, close_and_fail script fd st = Outcome.done (ret, st1) →
      ret = -1 ∧ st1.ctx.errno = st.ctx.errno ∧
      st1.ctx.errno_stack_position = st.ctx.errno_stack_position ∧
      st1.calls = st.calls ++ [SocketCall.close_called fd]) ∧
    (st.ctx.errno_stack_position < PLY_ERRNO_STACK_SIZE →
      ∃ st1, close_and_fail script fd st = Outcome.done (-1, st1)) := by
  unfold close_and_fail SocketState.save SocketState.restore SocketState.close
    SocketState.call ply_save_errno ply_restore_errno set_errno
  by_cases hroom : st.ctx.errno_stack_position < PLY_ERRNO_STACK_SIZE
  · simp only [hroom, if_true, gt_iff_lt, Nat.succ_pos, Nat.add_sub_cancel,
      Function.update_same, Outcome.done.injEq, Prod.mk.injEq]
    refine ⟨?_, fun _ => by simp⟩
    rintro ret st1 ⟨rfl, rfl⟩
    refine ⟨rfl, ?_, rfl, rfl⟩
    simp only [Nat.add_one_sub_one, Function.update_same]
  · simp only [hroom, if_false]
    refine ⟨?_, fun h => absurd h (by simp)⟩
    intro ret st1 h
    exact absurd h (by simp)

/-- The failure sequence around `free` and `close`, in the same way. -/
theorem free_close_and_fail_spec (script : SocketScript) (fd : Int) (st : SocketState) :
    (∀ ret st1, free_close_and_fail script fd st = Outcome.done (ret, st1) →
      ret = -1 ∧ st1.ctx.errno = st.ctx.errno ∧
      st1.ctx.errno_stack_position = st.ctx.errno_stack_position ∧
      st1.calls = st.calls ++ [SocketCall.free_called, SocketCall.close_called fd]) ∧
    (st.ctx.errno_stack_position < PLY_ERRNO_STACK_SIZE →
      ∃ st1, free_close_and_fail script fd st = Outcome.done (-1, st1)) := by
  unfold free_close_and_fail SocketState.save SocketState.restore SocketState.close
    SocketState.free SocketState.call ply_save_errno ply_restore_errno set_errno
  by_cases hroom : st.ctx.errno_stack_position < PLY_ERRNO_STACK_SIZE
  · simp only [hroom, if_true, gt_iff_lt, Nat.succ_pos, Nat.add_sub_cancel,
      Function.update_same, Outcome.done.injEq, Prod.mk.injEq]
    refine ⟨?_, fun _ => by simp⟩
    rintro ret st1 ⟨rfl, rfl⟩
    refine ⟨rfl, ?_, rfl, by simp only [List.append_assoc, List.singleton_append]⟩
    simp only [Nat.add_one_sub_one, Function.update_same]
  · simp only [hroom, if_false]
    refine ⟨?_, fun h => absurd h (by simp)⟩
    intro ret st1 h
    exact absurd h (by simp)

/-- Every run of `ply_listen_to_unix_socket` that returns, after `socket`
gave a descriptor: what it returns, what it leaves in errno, and the calls it
made, by the first step that fails. -/
theorem listen_to_unix_socket_on_return (script : SocketScript) (path : Option CStr)
    (is_abstract : Bool) (st : SocketState)
    (hopen : 0 ≤ script.socket_result.ret) :
    ∀ ret st1, ply_listen_to_unix_socket script path is_abstract st = Outcome.done (ret, st1) →
      (∀ e, failing_step script is_abstract = some e →
        closed_descriptors (st1.calls.drop st.calls.length) = [script.socket_result.ret] ∧
        ret = -1 ∧
        st1.ctx.errno_stack_position = st.ctx.errno_stack_position ∧
        st1.ctx.errno = e) ∧
      (failing_step script is_abstract = none →
        closed_descriptors (st1.calls.drop st.calls.length) = [] ∧
        ret = script.socket_result.ret) ∧
      (SocketCall.fchmod_called script.socket_result.ret 0o600
          ∈ st1.calls.drop st.calls.length ↔
        is_abstract = false ∧ 0 ≤ script.fcntl_result.ret ∧ 0 ≤ script.bind_result.ret ∧
          0 ≤ script.listen_result.ret) ∧
      (∀ fd mode, SocketCall.fchmod_called fd mode ∈ st1.calls.drop st.calls.length →
        fd = script.socket_result.ret ∧ mode = 0o600) := by
  intro ret st1 hrun
  have hfd : ¬ script.socket_result.ret < 0 := by omega
  cases path with
  | none => simp [ply_listen_to_unix_socket, ply_open_unix_socket] at hrun
  | some text =>
    simp only [ply_listen_to_unix_socket, ply_open_unix_socket, hfd, if_false] at hrun
    by_cases hfcntl : script.fcntl_result.ret < 0
    · simp only [hfcntl, if_true] at hrun
      obtain ⟨hspec, -⟩ := close_and_fail_spec script script.socket_result.ret
        ((st.call SocketCall.socket_called script.socket_result.errno).call
          (SocketCall.fcntl_called script.socket_result.ret) script.fcntl_result.errno)
      cases hcf : close_and_fail script script.socket_result.ret
        ((st.call SocketCall.socket_called script.socket_result.errno).call
          (SocketCall.fcntl_called script.socket_result.ret) script.fcntl_result.errno) with
      | assert_failed => rw [hcf] at hrun; simp at hrun
      | undefined => rw [hcf] at hrun; simp at hrun
      | pending => rw [hcf] at hrun; simp at hrun
      | done r =>
        obtain ⟨r1, s1⟩ := r
        obtain ⟨hr1, herr, hpos, hcalls⟩ := hspec r1 s1 hcf
        subst hr1
        rw [hcf] at hrun
        simp only [Int.reduceNeg, Int.reduceLT, if_true, Outcome.done.injEq,
          Prod.mk.injEq] at hrun
        obtain ⟨rfl, rfl⟩ := hrun
        simp only [SocketState.call, set_errno, List.append_assoc, List.singleton_append]
          at herr hpos hcalls
        have hnew : List.drop st.calls.length s1.calls =
            [SocketCall.socket_called, SocketCall.fcntl_called script.socket_result.ret,
             SocketCall.close_called script.socket_result.ret] := by
          simp only [hcalls, List.drop_left, List.append_assoc, List.cons_append,
              List.nil_append, List.singleton_append]
        have hstep : failing_step script is_abstract = some script.fcntl_result.errno := by
          simp only [failing_step, hfcntl, if_true]
        rw [hnew, hstep]
        refine ⟨fun e he => ?_, fun h => by simp at h, ?_, ?_⟩
        · simp only [Option.some.injEq] at he
          subst he
          exact ⟨rfl, rfl, hpos, herr⟩
        · constructor
          · intro hmem
            simp at hmem
          · rintro ⟨-, h1, h2, h3⟩
            omega
        · intro fd mode hmem
          simp at hmem
    · simp only [hfcntl, if_false, hfd] at hrun
      cases haddr : create_unix_address_from_path (some text) is_abstract true
          script.calloc_ok with
      | assert_failed => rw [haddr] at hrun; simp at hrun
      | undefined => rw [haddr] at hrun; simp at hrun
      | pending => rw [haddr] at hrun; simp at hrun
      | done a =>
        obtain ⟨address, address_size⟩ := a
        rw [haddr] at hrun
        simp only at hrun
        by_cases hbind : script.bind_result.ret < 0
        · simp only [hbind, if_true] at hrun
          obtain ⟨hspec, -⟩ := free_close_and_fail_spec script script.socket_result.ret _
          obtain ⟨hr1, herr, hpos, hcalls⟩ := hspec ret st1 hrun
          simp only [SocketState.call, set_errno, List.append_assoc, List.singleton_append,
            List.cons_append, List.nil_append] at herr hpos hcalls
          have hnew : List.drop st.calls.length st1.calls =
              [SocketCall.socket_called, SocketCall.fcntl_called script.socket_result.ret,
               SocketCall.bind_called script.socket_result.ret address (address_size.getD 0),
               SocketCall.free_called,
               SocketCall.close_called script.socket_result.ret] := by
            simp only [hcalls, List.drop_left, List.append_assoc, List.cons_append,
              List.nil_append, List.singleton_append]
          have hstep : failing_step script is_abstract = some script.bind_result.errno := by
            simp only [failing_step, hfcntl, if_false, hbind, if_true]
          rw [hnew, hstep]
          refine ⟨fun e he => ?_, fun h => by simp at h, ?_, ?_⟩
          · simp only [Option.some.injEq] at he
            subst he
            exact ⟨rfl, hr1, hpos, herr⟩
          · constructor
            · intro hmem
              simp at hmem
            · rintro ⟨-, h1, h2, h3⟩
              omega
          · intro fd mode hmem
            simp at hmem
        · simp only [hbind, if_false, listen_after_bind] at hrun
          by_cases hlisten : script.listen_result.ret < 0
          · simp only [hlisten, if_true] at hrun
            obtain ⟨hspec, -⟩ := close_and_fail_spec script script.socket_result.ret _
            obtain ⟨hr1, herr, hpos, hcalls⟩ := hspec ret st1 hrun
            simp only [SocketState.call, SocketState.free, set_errno, List.append_assoc,
              List.singleton_append, List.cons_append, List.nil_append] at herr hpos hcalls
            have hnew : List.drop st.calls.length st1.calls =
                [SocketCall.socket_called, SocketCall.fcntl_called script.socket_result.ret,
                 SocketCall.bind_called script.socket_result.ret address (address_size.getD 0),
                 SocketCall.free_called,
                 SocketCall.listen_called script.socket_result.ret
                   PLY_SOCKET_CONNECTION_BACKLOG,
                 SocketCall.close_called script.socket_result.ret] := by
              simp only [hcalls, List.drop_left, List.append_assoc, List.cons_append,
              List.nil_append, List.singleton_append]
            have hstep : failing_step script is_abstract = some script.listen_result.errno := by
              simp only [failing_step, hfcntl, if_false, hbind, hlisten, if_true]
            rw [hnew, hstep]
            refine ⟨fun e he => ?_, fun h => by simp at h, ?_, ?_⟩
            · simp only [Option.some.injEq] at he
              subst he
              exact ⟨rfl, hr1, hpos, herr⟩
            · constructor
              · intro hmem
                simp at hmem
              · rintro ⟨-, h1, h2, h3⟩
                omega
            · intro fd mode hmem
              simp at hmem
          · simp only [hlisten, if_false] at hrun
            cases is_abstract with
            | true =>
              simp only [not_true_eq_false, if_false, Outcome.done.injEq,
                Prod.mk.injEq] at hrun
              obtain ⟨hret, hst⟩ := hrun
              subst hret
              have hcalls : st1.calls = st.calls ++
                  [SocketCall.socket_called, SocketCall.fcntl_called script.socket_result.ret,
                   SocketCall.bind_called script.socket_result.ret address
                     (address_size.getD 0),
                   SocketCall.free_called,
                   SocketCall.listen_called script.socket_result.ret
                     PLY_SOCKET_CONNECTION_BACKLOG] := by
                rw [← hst]
                simp only [SocketState.call, SocketState.free, List.append_assoc,
                  List.singleton_append, List.cons_append, List.nil_append]
              have hnew : List.drop st.calls.length st1.calls =
                  [SocketCall.socket_called, SocketCall.fcntl_called script.socket_result.ret,
                   SocketCall.bind_called script.socket_result.ret address
                     (address_size.getD 0),
                   SocketCall.free_called,
                   SocketCall.listen_called script.socket_result.ret
                     PLY_SOCKET_CONNECTION_BACKLOG] := by
                simp only [hcalls, List.drop_left]
              have hstep : failing_step script true = none := by
                simp [failing_step, hfcntl, hbind, hlisten]
              rw [hnew, hstep]
              refine ⟨fun e he => by simp at he, fun _ => ⟨rfl, rfl⟩, ?_, ?_⟩
              · simp
              · intro fd mode hmem
                simp at hmem
            | false =>
              simp only [Bool.false_eq_true, not_false_eq_true, if_true] at hrun
              by_cases hfchmod : script.fchmod_result.ret < 0
              · simp only [hfchmod, if_true] at hrun
                obtain ⟨hspec, -⟩ := close_and_fail_spec script script.socket_result.ret _
                obtain ⟨hr1, herr, hpos, hcalls⟩ := hspec ret st1 hrun
                simp only [SocketState.call, SocketState.free, set_errno, List.append_assoc,
                  List.singleton_append, List.cons_append, List.nil_append]
                  at herr hpos hcalls
                have hnew : List.drop st.calls.length st1.calls =
                    [SocketCall.socket_called,
                     SocketCall.fcntl_called script.socket_result.ret,
                     SocketCall.bind_called script.socket_result.ret address
                       (address_size.getD 0),
                     SocketCall.free_called,
                     SocketCall.listen_called script.socket_result.ret
                       PLY_SOCKET_CONNECTION_BACKLOG,
                     SocketCall.fchmod_called script.socket_result.ret 0o600,
                     SocketCall.close_called script.socket_result.ret] := by
                  simp only [hcalls, List.drop_left, List.append_assoc, List.cons_append,
              List.nil_append, List.singleton_append]
                have hstep : failing_step script false = some script.fchmod_result.errno := by
                  simp [failing_step, hfcntl, hbind, hlisten, hfchmod]
                rw [hnew, hstep]
                refine ⟨fun e he => ?_, fun h => by simp at h, ?_, ?_⟩
                · simp only [Option.some.injEq] at he
                  subst he
                  exact ⟨rfl, hr1, hpos, herr⟩
                · simp only [List.mem_cons, List.mem_singleton, reduceCtorEq, false_or,
                    or_false, true_or, or_true, true_iff, true_and]
                  omega
                · intro fd mode hmem
                  simp only [List.mem_cons, List.mem_singleton, reduceCtorEq, false_or,
                    or_false, SocketCall.fchmod_called.injEq, List.not_mem_nil] at hmem
                  exact hmem
              · simp only [hfchmod, if_false, Outcome.done.injEq, Prod.mk.injEq] at hrun
                obtain ⟨hret, hst⟩ := hrun
                subst hret
                have hcalls : st1.calls = st.calls ++
                    [SocketCall.socket_called,
                     SocketCall.fcntl_called script.socket_result.ret,
                     SocketCall.bind_called script.socket_result.ret address
                       (address_size.getD 0),
                     SocketCall.free_called,
                     SocketCall.listen_called script.socket_result.ret
                       PLY_SOCKET_CONNECTION_BACKLOG,
                     SocketCall.fchmod_called script.socket_result.ret 0o600] := by
                  rw [← hst]
                  simp only [SocketState.call, SocketState.free, List.append_assoc,
                    List.singleton_append, List.cons_append, List.nil_append]
                have hnew : List.drop st.calls.length st1.calls =
                    [SocketCall.socket_called,
                     SocketCall.fcntl_called script.socket_result.ret,
                     SocketCall.bind_called script.socket_result.ret address
                       (address_size.getD 0),
                     SocketCall.free_called,
                     SocketCall.listen_called script.socket_result.ret
                       PLY_SOCKET_CONNECTION_BACKLOG,
                     SocketCall.fchmod_called script.socket_result.ret 0o600] := by
                  simp only [hcalls, List.drop_left]
                have hstep : failing_step script false = none := by
                  simp [failing_step, hfcntl, hbind, hlisten, hfchmod]
                rw [hnew, hstep]
                refine ⟨fun e he => by simp at he, fun _ => ⟨rfl, rfl⟩, ?_, ?_⟩
                · simp only [List.mem_cons, List.mem_singleton, reduceCtorEq, false_or,
                    or_false, true_or, or_true, true_iff, true_and]
                  omega
                · intro fd mode hmem
                  simp only [List.mem_cons, List.mem_singleton, reduceCtorEq, false_or,
                    or_false, SocketCall.fchmod_called.injEq, List.not_mem_nil] at hmem
                  exact hmem

/-- `ply_listen_to_unix_socket` returns whenever the errno stack has room for
one entry and `create_unix_address_from_path` builds the address for the
path. -/
theorem listen_to_unix_socket_returns (script : SocketScript) (path : Option CStr)
    (is_abstract : Bool) (st : SocketState)
    (hroom : st.ctx.errno_stack_position < PLY_ERRNO_STACK_SIZE)
    (haddr : ∃ a, create_unix_address_from_path path is_abstract true script.calloc_ok
      = Outcome.done a) :
    ∃ ret st1, ply_listen_to_unix_socket script path is_abstract st
      = Outcome.done (ret, st1) := by
  obtain ⟨⟨address, address_size⟩, haddr⟩ := haddr
  cases path with
  | none => simp [create_unix_address_from_path] at haddr
  | some text =>
    simp only [ply_listen_to_unix_socket, ply_open_unix_socket]
    by_cases hfd : script.socket_result.ret < 0
    · simp only [hfd, if_true, Int.reduceNeg, Int.reduceLT]
      exact ⟨_, _, rfl⟩
    · simp only [hfd, if_false]
      by_cases hfcntl : script.fcntl_result.ret < 0
      · simp only [hfcntl, if_true]
        obtain ⟨-, hex⟩ := close_and_fail_spec script script.socket_result.ret
          ((st.call SocketCall.socket_called script.socket_result.errno).call
            (SocketCall.fcntl_called script.socket_result.ret) script.fcntl_result.errno)
        obtain ⟨s1, hs1⟩ := hex hroom
        rw [hs1]
        simp only [Int.reduceNeg, Int.reduceLT, if_true]
        exact ⟨_, _, rfl⟩
      · simp only [hfcntl, if_false, hfd, haddr]
        by_cases hbind : script.bind_result.ret < 0
        · simp only [hbind, if_true]
          obtain ⟨-, hex⟩ := free_close_and_fail_spec script script.socket_result.ret
            (((st.call SocketCall.socket_called script.socket_result.errno).call
              (SocketCall.fcntl_called script.socket_result.ret) script.fcntl_result.errno).call
              (SocketCall.bind_called script.socket_result.ret address (address_size.getD 0))
              script.bind_result.errno)
          obtain ⟨s1, hs1⟩ := hex hroom
          exact ⟨_, _, hs1⟩
        · simp only [hbind, if_false, listen_after_bind]
          by_cases hlisten : script.listen_result.ret < 0
          · simp only [hlisten, if_true]
            obtain ⟨-, hex⟩ := close_and_fail_spec script script.socket_result.ret
              ((SocketState.free script
                (((st.call SocketCall.socket_called script.socket_result.errno).call
                  (SocketCall.fcntl_called script.socket_result.ret)
                  script.fcntl_result.errno).call
                  (SocketCall.bind_called script.socket_result.ret address
                    (address_size.getD 0)) script.bind_result.errno)).call
                (SocketCall.listen_called script.socket_result.ret
                  PLY_SOCKET_CONNECTION_BACKLOG) script.listen_result.errno)
            obtain ⟨s1, hs1⟩ := hex hroom
            exact ⟨_, _, hs1⟩
          · simp only [hlisten, if_false]
            cases is_abstract with
            | true =>
              simp only [not_true_eq_false, if_false]
              exact ⟨_, _, rfl⟩
            | false =>
              simp only [Bool.false_eq_true, not_false_eq_true, if_true]
              by_cases hfchmod : script.fchmod_result.ret < 0
              · simp only [hfchmod, if_true]
                obtain ⟨-, hex⟩ := close_and_fail_spec script script.socket_result.ret
                  (((SocketState.free script
                    (((st.call SocketCall.socket_called script.socket_result.errno).call
                      (SocketCall.fcntl_called script.socket_result.ret)
                      script.fcntl_result.errno).call
                      (SocketCall.bind_called script.socket_result.ret address
                        (address_size.getD 0)) script.bind_result.errno)).call
                    (SocketCall.listen_called script.socket_result.ret
                      PLY_SOCKET_CONNECTION_BACKLOG) script.listen_result.errno).call
                    (SocketCall.fchmod_called script.socket_result.ret 0o600)
                    script.fchmod_result.errno)
                obtain ⟨s1, hs1⟩ := hex hroom
                exact ⟨_, _, hs1⟩
              · simp only [hfchmod, if_false]
                exact ⟨_, _, rfl⟩

/-- With the errno stack full on entry, a failing `bind` leads into the
assertion of `ply_save_errno`: the function does not return. -/
theorem listen_to_unix_socket_full_stack :
    socket_seen (ply_listen_to_unix_socket script_bind_fails (some ['a']) false
      { ctx := { errno := 0, errno_stack := fun _ => 0,
                 errno_stack_position := PLY_ERRNO_STACK_SIZE },
        calls := [] }) = Outcome.assert_failed := by
  decide


/-! ## Properties of the specification -/

/-- C1: the errno save/restore pair is a LIFO stack.  From any depth `d` and
for any `N` error codes with `d + N <= 256`, `N` calls of `ply_save_errno`
(errno being the i-th code at the i-th call) followed by `N` calls of
`ply_restore_errno` (errno overwritten arbitrarily before each) make errno
the saved codes in reverse order and leave the depth at `d`; and
`ply_restore_errno` at depth `0` violates its assertion. -/
theorem C1_errno_stack_lifo (c : ErrnoCtx) (es ks : List Int)
    (hcap : c.errno_stack_position + es.length ≤ PLY_ERRNO_STACK_SIZE)
    (hlen : ks.length = es.length) :
    (∃ c1 c2, save_all es c = some c1 ∧
        restore_all ks c1 = some (es.reverse, c2) ∧
        c2.errno_stack_position = c.errno_stack_position) ∧
    (∀ c0 : ErrnoCtx, c0.errno_stack_position = 0 → ply_restore_errno c0 = none) := by
  refine ⟨?_, ?_⟩
  · obtain ⟨c1, c2, h1, h2, h3, _⟩ := save_restore_lifo es ks c hcap hlen
    exact ⟨c1, c2, h1, h2, h3⟩
  · intro c0 h0
    simp only [ply_restore_errno, h0, gt_iff_lt, Nat.lt_irrefl, if_false]

/-- C1 at a concrete run: three saves of 11, 22, 33 at depth 0, errno
clobbered with 7, 8, 9 before the three restores. -/
theorem C1_errno_stack_lifo_witness :
    (∃ c1 c2, save_all [11, 22, 33] errno_ctx_init = some c1 ∧
        restore_all [7, 8, 9] c1 = some ([11, 22, 33].reverse, c2) ∧
        c2.errno_stack_position = errno_ctx_init.errno_stack_position) ∧
    (∀ c0 : ErrnoCtx, c0.errno_stack_position = 0 → ply_restore_errno c0 = none) :=
  C1_errno_stack_lifo errno_ctx_init [11, 22, 33] [7, 8, 9] (by decide) (by decide)

/-- C2: for every byte count `n` and every sequence of results of `write`,
`ply_write` returns true exactly when the positive counts it consumed sum to
`n`, provided each of the counts consumed was at most the number of bytes
still outstanding.  It returns on every sequence that holds a non-positive
result with an errno other than `EINTR`, and on every non-empty sequence
whose positive counts fit and add up to `n`; for `n = 0` it returns true
after one call; a non-positive result with errno `EINTR` is retried; a
non-positive result with another errno ends the loop with false while bytes
remain. -/
theorem C2_ply_write_all_or_fail (n : Nat) (rs : List SysRet) (hn : n < SIZE_MOD) :
    (∀ b k, ply_write n rs = some (b, k) → counts_fit n (rs.take k) →
        (b = true ↔ positive_sum (rs.take k) = n)) ∧
    ((∃ r ∈ rs, r.ret ≤ 0 ∧ r.errno ≠ EINTR) → ∃ b k, ply_write n rs = some (b, k)) ∧
    (rs ≠ [] → counts_fit n rs → positive_sum rs = n →
        ∃ b k, ply_write n rs = some (b, k)) ∧
    (∀ r rest, r.ret ≤ 0 → ply_write 0 (r :: rest) = some (true, 1)) ∧
    (∀ r rest, 0 < n → r.ret ≤ 0 → r.errno = EINTR →
        ply_write n (r :: rest) = (ply_write n rest).map (fun p => (p.1, p.2 + 1))) ∧
    (∀ r rest, 0 < n → r.ret ≤ 0 → r.errno ≠ EINTR →
        ply_write n (r :: rest) = some (false, 1)) := by
  have key : ∀ b k, ply_write n rs = some (b, k) → counts_fit n (rs.take k) →
      (b = true ↔ positive_sum (rs.take k) = n) := by
    intro b k h hfit
    unfold ply_write at h
    cases hx : transfer_loop n 0 0 rs with
    | none => rw [hx] at h; simp at h
    | some x =>
      rw [hx] at h
      simp only [Option.some.injEq, Prod.mk.injEq] at h
      obtain ⟨hb, hk⟩ := h
      obtain ⟨hcut, -⟩ := transfer_loop_take rs n 0 0 x hx
      rw [Nat.sub_zero, hk] at hcut
      obtain ⟨h1, h2, _⟩ := transfer_loop_spec (rs.take k) n 0 0 x (by omega) hfit hcut
      rw [Nat.sub_zero, hk, Nat.zero_add, List.take_take, Nat.min_self] at h2
      rw [← hb, decide_eq_true_iff, ← h2]
      omega
  refine ⟨key, ?_, ?_, ?_, ?_, ?_⟩
  · intro hex
    obtain ⟨x, hx⟩ := transfer_loop_returns rs n 0 0 hex
    exact ⟨decide (x.bytes_left = 0), x.calls, by simp only [ply_write, hx]⟩
  · intro hne hfit hsum
    obtain ⟨x, hx⟩ := transfer_loop_returns_of_sum rs n 0 0 (by omega) hfit hne hsum
    exact ⟨decide (x.bytes_left = 0), x.calls, by simp only [ply_write, hx]⟩
  · intro r rest hr
    unfold ply_write
    rw [transfer_loop]
    have hpos : ¬ r.ret > 0 := by omega
    simp only [hpos, if_false]
    by_cases he : r.errno ≠ EINTR
    · rw [if_pos he]; rfl
    · rw [if_neg he]; rfl
  · intro r rest hn0 hr he
    unfold ply_write
    rw [transfer_loop]
    have hpos : ¬ r.ret > 0 := by omega
    have he1 : ¬ r.errno ≠ EINTR := fun h => h he
    simp only [hpos, if_false]
    rw [if_neg he1, if_pos hn0, transfer_loop_calls_succ]
    cases transfer_loop n 0 0 rest with
    | none => rfl
    | some x => rfl
  · intro r rest hn0 hr he
    unfold ply_write
    rw [transfer_loop]
    have hpos : ¬ r.ret > 0 := by omega
    simp only [hpos, if_false]
    rw [if_pos he]
    simp only [Option.some.injEq, Prod.mk.injEq, decide_eq_false_iff_not, Nat.zero_add, and_true]
    omega

/-- C2 at a concrete run: five bytes are written by a write of two bytes, an
interrupted write and a write of three bytes. -/
theorem C2_ply_write_all_or_fail_witness :
    ply_write 5 [⟨2, 0⟩, ⟨-1, EINTR⟩, ⟨3, 0⟩] = some (true, 3) ∧
    (true = true ↔ positive_sum (([⟨2, 0⟩, ⟨-1, EINTR⟩, ⟨3, 0⟩] : List SysRet).take 3) = 5) :=
  ⟨by decide,
   (C2_ply_write_all_or_fail 5 [⟨2, 0⟩, ⟨-1, EINTR⟩, ⟨3, 0⟩] (by decide)).1
     true 3 (by decide) (by decide)⟩

/-- C3, the failing run: asked for `SIZE_MAX` bytes, with the first `read`
failing with `EIO`, `ply_read` returns true although no byte was read and all
`SIZE_MAX` bytes are still outstanding.  The `-1` that
`ply_read_some_bytes` returns for the failure is compared, as a `size_t`, with
the request. -/
theorem C3_ply_read_true_on_failed_read :
    ply_read SIZE_MAX [⟨-1, EIO⟩] =
      Outcome.done (true, { bytes_left := SIZE_MAX, total_bytes := 0, errno := EIO, calls := 1 }) ∧
    ply_read_some_bytes SIZE_MAX [⟨-1, EIO⟩] =
      some (-1, { bytes_left := SIZE_MAX, total_bytes := 0, errno := EIO, calls := 1 }) := by
  constructor <;> decide

/-- C4: for every path that passes the assertions of
`create_unix_address_from_path`, the returned address is fully determined:
the family is `AF_UNIX`; `sun_path` is the path text from byte 0 followed by
zero bytes when `is_abstract` is false, and a zero byte, the path text from
byte 1, and zero bytes when it is true, 108 bytes in all; the size stored
through `address_size` is the size of the whole record. -/
theorem C4_unix_address_fully_determined (path : Option CStr) (is_abstract : Bool)
    (address_size_given : Bool)
    (hacc : create_unix_address_from_path path is_abstract address_size_given true
      ≠ Outcome.assert_failed) :
    ∃ text : CStr, path = some text ∧
      create_unix_address_from_path path is_abstract address_size_given true =
        Outcome.done
          ({ sun_family := AF_UNIX, sun_path := sun_path_layout text is_abstract },
           if address_size_given then some SIZEOF_SOCKADDR_UN else none) ∧
      (sun_path_layout text is_abstract).length = SIZEOF_SUN_PATH := by
  cases path with
  | none => exact absurd rfl hacc
  | some text =>
    refine ⟨text, rfl, ?_⟩
    have hlen : strlen text < SIZEOF_SUN_FAMILY := by
      by_contra hge
      apply hacc
      simp only [create_unix_address_from_path, hge, not_false_eq_true, if_true]
    have hfit : strlen text < SIZEOF_SUN_PATH :=
      Nat.lt_of_lt_of_le hlen (by decide)
    obtain ⟨hfill, hlayout⟩ := fill_sun_path_layout text is_abstract hfit
    refine ⟨?_, hlayout⟩
    simp only [create_unix_address_from_path, hlen, not_true_eq_false, if_false, hfill,
      Bool.not_eq_true]

/-- C4 at a concrete input: the abstract address for the path `"a"`. -/
theorem C4_unix_address_fully_determined_witness :
    ∃ text : CStr, some ['a'] = some text ∧
      create_unix_address_from_path (some ['a']) true true true =
        Outcome.done
          ({ sun_family := AF_UNIX, sun_path := sun_path_layout text true },
           if true then some SIZEOF_SOCKADDR_UN else none) ∧
      (sun_path_layout text true).length = SIZEOF_SUN_PATH :=
  C4_unix_address_fully_determined (some ['a']) true true (by decide)

/-- C5, the failing input: the two-byte path `"ab"` is shorter than the
108-byte path field, and `create_unix_address_from_path` stops at its
assertion for it, abstract or not: the assertion compares the length with the
size of the `sun_family` field.  The copy that follows the assertion would
have fitted the field. -/
theorem C5_short_path_fails_assertion :
    strlen ['a', 'b'] < SIZEOF_SUN_PATH ∧
    create_unix_address_from_path (some ['a', 'b']) false true true = Outcome.assert_failed ∧
    create_unix_address_from_path (some ['a', 'b']) true true true = Outcome.assert_failed ∧
    fill_sun_path ['a', 'b'] false = some (sun_path_layout ['a', 'b'] false) ∧
    fill_sun_path ['a', 'b'] true = some (sun_path_layout ['a', 'b'] true) := by
  decide

/-- C6, the failing input: when the resource limit gives no bound (the query
fails, or the limit is infinite) and the descriptor directory can be read,
`ply_close_all_fds` closes no descriptor at all, whatever names the directory
lists.  For the listing `.`, `..`, `0`, `1`, `2`, `3` no `close` call is
made.  The test `byte_after_number != NULL` that follows `strtol` holds for
every entry, and its `continue` skips the `close`. -/
theorem C6_close_open_fds_closes_nothing :
    (∀ entries : List CStr,
      ply_close_all_fds none (some entries) = Outcome.done [] ∧
      ply_close_all_fds (some RLIM_INFINITY) (some entries) = Outcome.done [] ∧
      ply_close_open_fds (some entries) = Outcome.done (true, [])) ∧
    ply_close_all_fds none (some [['.'], ['.', '.'], ['0'], ['1'], ['2'], ['3']])
      = Outcome.done [] := by
  have h : ∀ entries : List CStr,
      ply_close_open_fds (some entries) = Outcome.done (true, []) := by
    intro entries
    exact close_open_fds_loop_closes_nothing entries _ _
  refine ⟨fun entries => ⟨?_, ?_, h entries⟩, by decide⟩
  · have hm : ply_get_max_open_fds none < 0 := by decide
    simp only [ply_close_all_fds, hm, if_true, h entries]
  · have hm : ply_get_max_open_fds (some RLIM_INFINITY) < 0 := by decide
    simp only [ply_close_all_fds, hm, if_true, h entries]

/-- C7, the failing input: when the resource limit gives no bound (the query
fails, or the limit is infinite) and the descriptor directory cannot be
opened, so that `ply_close_open_fds` returns false, `ply_close_all_fds` makes
no `close` call: `max_open_fds` is set to `INT_MAX`, but the closing loop is
the `else` branch of the test that was just taken.  With a limit of 4 the
descriptors 0, 1, 2, 3 are closed. -/
theorem C7_close_all_fds_fallback_closes_nothing :
    ply_close_open_fds none = Outcome.done (false, []) ∧
    ply_close_all_fds none none = Outcome.done [] ∧
    ply_close_all_fds (some RLIM_INFINITY) none = Outcome.done [] ∧
    ply_close_all_fds (some 4) none = Outcome.done [0, 1, 2, 3] := by
  decide

/-- C9: for every non-empty path at which a regular file exists, or another
node that is not a directory and for which `mkdir` reports `EEXIST`,
`ply_create_directory` returns false with errno `EEXIST` and the filesystem
unchanged; it is entered once (no call on the parent), and makes at most the
one `mkdir` call on the path itself. -/
theorem C9_create_directory_file_in_the_way {σ : Type} (os : FileSystem σ)
    (free_errno : Int → Int) (directory : CStr) (w : World σ)
    (hne : directory ≠ [])
    (hfile : is_regular_file os w.fs directory = true ∨
      (is_directory os w.fs directory = false ∧ is_regular_file os w.fs directory = false ∧
        os.mkdir w.fs directory 0o755 = Except.error EEXIST)) :
    ∃ w1, ply_create_directory os free_errno directory w = Outcome.done (false, w1) ∧
      w1.ctx.errno = EEXIST ∧ w1.fs = w.fs ∧
      (w1.events = w.events ++ [Event.create_directory_called directory] ∨
       w1.events = w.events ++ [Event.create_directory_called directory,
         Event.mkdir_called directory 0o755]) := by
  have hnotdir : is_directory os w.fs directory = false := by
    rcases hfile with hreg | ⟨hd, -, -⟩
    · unfold is_regular_file at hreg
      unfold is_directory
      cases hst : os.stat w.fs directory with
      | error e => rfl
      | ok st_mode =>
        rw [hst] at hreg
        simp only [S_ISREG, decide_eq_true_iff] at hreg
        simp only [S_ISDIR, hreg, decide_eq_false_iff_not]
        decide
    · exact hd
  unfold ply_create_directory
  rw [ply_create_directory_aux]
  simp only [hne, if_false]
  obtain ⟨hde1, hde2, hde3, -⟩ :=
    ply_directory_exists_spec os directory (w.record (Event.create_directory_called directory))
  rcases hde : ply_directory_exists os directory
    (w.record (Event.create_directory_called directory)) with ⟨b1, wa⟩
  rw [hde] at hde1 hde2 hde3
  simp only at hde1 hde2 hde3
  have hwa : wa.fs = w.fs := hde2
  have hb1 : b1 = false := by rw [hde1]; exact hnotdir
  subst hb1
  simp only
  obtain ⟨hfe1, hfe2, hfe3, -⟩ := ply_file_exists_spec os directory wa
  rcases hfe : ply_file_exists os directory wa with ⟨b2, wb⟩
  rw [hfe] at hfe1 hfe2 hfe3
  simp only at hfe1 hfe2 hfe3
  have hwb : wb.fs = w.fs := hfe2.trans hwa
  have hev : wb.events = w.events ++ [Event.create_directory_called directory] :=
    hfe3.trans hde3
  cases b2 with
  | true =>
    exact ⟨wb.with_errno EEXIST, rfl, rfl, hwb, Or.inl hev⟩
  | false =>
    rcases hfile with hreg | ⟨-, -, hmk⟩
    · rw [hwa, hreg] at hfe1
      exact absurd hfe1 (by decide)
    · simp only
      have hrec : (wb.record (Event.mkdir_called directory 0o755)).fs = wb.fs := rfl
      rw [hrec, hwb, hmk]
      have hne2 : ¬ EEXIST = ENOENT := by decide
      simp only [hne2, if_false]
      refine ⟨_, rfl, rfl, hwb, Or.inr ?_⟩
      show wb.events ++ [Event.mkdir_called directory 0o755] = _
      rw [hev, List.append_assoc]
      rfl

/-- C9 on the small filesystem: a regular file is at `a`. -/
theorem C9_create_directory_file_in_the_way_witness :
    ∃ w1, ply_create_directory sim_fs id ['a']
        (sim_world [(['a'], { st_mode := S_IFREG ||| 0o644, content := ['x'] })])
        = Outcome.done (false, w1) ∧
      w1.ctx.errno = EEXIST ∧
      w1.fs = [(['a'], { st_mode := S_IFREG ||| 0o644, content := ['x'] })] ∧
      (w1.events = [] ++ [Event.create_directory_called ['a']] ∨
       w1.events = [] ++ [Event.create_directory_called ['a'],
         Event.mkdir_called ['a'] 0o755]) :=
  C9_create_directory_file_in_the_way sim_fs id ['a']
    (sim_world [(['a'], { st_mode := S_IFREG ||| 0o644, content := ['x'] })])
    (by decide) (Or.inl (by decide))

/-- C10, the failing inputs.  Copying a source tree with one empty
subdirectory `s/d` into the empty directory `t`, `ply_copy_directory` returns
true and leaves the filesystem as it was: `t/d` does not exist afterwards.
Copying a source tree with a file `s/d/f` in a subdirectory, it returns
false (errno `ENOENT`, from opening `t/d/f`) and `t` is still empty.
`ply_copy_subdirectory` recurses into `destination/subdirectory` without
ever making that directory.  A file directly in the source is copied with
its content and mode. -/
theorem C10_copy_directory_makes_no_subdirectory :
    observe (ply_copy_directory sim_os id zero_buffer 4 ['s'] ['t']
        (sim_os_world tree_with_empty_subdirectory)) =
      Outcome.done { result := true,
                     fs := { files := tree_with_empty_subdirectory, fds := [] },
                     errno := 0, depth := 0, events := [] } ∧
    sim_stat tree_with_empty_subdirectory ['t', '/', 'd'] = Except.error ENOENT ∧
    observe (ply_copy_directory sim_os id zero_buffer 4 ['s'] ['t']
        (sim_os_world tree_with_nested_file)) =
      Outcome.done { result := false,
                     fs := { files := tree_with_nested_file, fds := [] },
                     errno := ENOENT, depth := 0, events := [] } ∧
    observe (ply_copy_directory sim_os id zero_buffer 4 ['s'] ['t']
        (sim_os_world tree_with_one_file)) =
      Outcome.done { result := true,
                     fs := { files := tree_with_one_file ++
                               [(['t', '/', 'f'], sim_file 0o640 ['h', 'i'])],
                             fds := [] },
                     errno := 0, depth := 0, events := [] } := by
  refine ⟨?_, ?_, ?_, ?_⟩
  · decide
  · rfl
  · decide
  · decide

/-- C11, the failing inputs.  In the loop of `ply_copy_file`, with source
descriptor 3 and destination descriptor 4: when the first `read` fails with
`EINTR`, it is not retried (the next scripted read is never made); `write` is
called on the destination with the count `SIZE_MAX`, far above 4096, and the
loop ends with false once that `write` fails.  The same call is made when the
`read` fails with `EIO`.  `bytes_read` is a `size_t`, so `bytes_read < 0`
never holds.  A `read` of two bytes and one of one byte followed by end of
file end the loop with true after `write` calls for exactly those bytes. -/
theorem C11_copy_loop_writes_after_failed_read :
    copy_seen (copy_file_loop script_os 3 4 5 zero_buffer
        (script_world [ScriptedRead.failure EINTR, ScriptedRead.data []]
          [ScriptedWrite.failure EFAULT])) =
      Outcome.done { result := false, asked := [(4, SIZE_MAX)], reads_left := 1,
                     errno := EFAULT } ∧
    COPY_BUFFER_SIZE < SIZE_MAX ∧
    copy_seen (copy_file_loop script_os 3 4 5 zero_buffer
        (script_world [ScriptedRead.failure EIO] [ScriptedWrite.failure EFAULT])) =
      Outcome.done { result := false, asked := [(4, SIZE_MAX)], reads_left := 0,
                     errno := EFAULT } ∧
    copy_seen (copy_file_loop script_os 3 4 5 zero_buffer
        (script_world [ScriptedRead.data ['h', 'i'], ScriptedRead.data ['!'],
          ScriptedRead.data []] [])) =
      Outcome.done { result := true, asked := [(4, 2), (4, 1)], reads_left := 0,
                     errno := 0 } ∧
    bytes_written (copy_file_loop script_os 3 4 5 zero_buffer
        (script_world [ScriptedRead.data ['h', 'i'], ScriptedRead.data ['!'],
          ScriptedRead.data []] [])) = [['h', 'i'], ['!']] := by
  refine ⟨?_, ?_, ?_, ?_, ?_⟩ <;> decide

/-- C12: `ply_listen_to_unix_socket` over a trace of its calls, with errno
and the errno stack.  After `socket` gave a descriptor, on every run that
returns: if a later step fails (`fcntl`, `bind`, `listen`, or `fchmod` for a
socket that is not abstract), `close` is called exactly once, on that
descriptor, -1 is returned, the depth of the errno stack is as on entry, and
errno is what the failing step left, whatever `free` and `close` leave in
errno; if no step fails the descriptor is returned and nothing is closed;
`fchmod (fd, 0600)` is called exactly when `is_abstract` is false and
`fcntl`, `bind` and `listen` succeeded, and no other `fchmod` is made.  The
run returns whenever the errno stack has room for one entry and the address
for the path is built. -/
theorem C12_listen_failure_closes_socket (script : SocketScript) (path : Option CStr)
    (is_abstract : Bool) (st : SocketState)
    (hopen : 0 ≤ script.socket_result.ret) :
    (∀ ret st1, ply_listen_to_unix_socket script path is_abstract st = Outcome.done (ret, st1) →
      (∀ e, failing_step script is_abstract = some e →
        closed_descriptors (st1.calls.drop st.calls.length) = [script.socket_result.ret] ∧
        ret = -1 ∧
        st1.ctx.errno_stack_position = st.ctx.errno_stack_position ∧
        st1.ctx.errno = e) ∧
      (failing_step script is_abstract = none →
        closed_descriptors (st1.calls.drop st.calls.length) = [] ∧
        ret = script.socket_result.ret) ∧
      (SocketCall.fchmod_called script.socket_result.ret 0o600
          ∈ st1.calls.drop st.calls.length ↔
        is_abstract = false ∧ 0 ≤ script.fcntl_result.ret ∧ 0 ≤ script.bind_result.ret ∧
          0 ≤ script.listen_result.ret) ∧
      (∀ fd mode, SocketCall.fchmod_called fd mode ∈ st1.calls.drop st.calls.length →
        fd = script.socket_result.ret ∧ mode = 0o600)) ∧
    (st.ctx.errno_stack_position < PLY_ERRNO_STACK_SIZE →
      (∃ a, create_unix_address_from_path path is_abstract true script.calloc_ok
        = Outcome.done a) →
      ∃ ret st1, ply_listen_to_unix_socket script path is_abstract st
        = Outcome.done (ret, st1)) :=
  ⟨listen_to_unix_socket_on_return script path is_abstract st hopen,
   listen_to_unix_socket_returns script path is_abstract st⟩

/-- C12 at a concrete run: `socket` returns 3, `bind` fails with errno 98,
`free` leaves `EINTR` and `close` leaves `EIO` in errno. -/
theorem C12_listen_failure_closes_socket_witness :
    ∃ ret st1, ply_listen_to_unix_socket script_bind_fails (some ['a']) false
        socket_state_init = Outcome.done (ret, st1) ∧
      closed_descriptors (st1.calls.drop socket_state_init.calls.length) = [3] ∧
      ret = -1 ∧ st1.ctx.errno_stack_position = 0 ∧ st1.ctx.errno = 98 := by
  obtain ⟨hon, hreturns⟩ :=
    C12_listen_failure_closes_socket script_bind_fails (some ['a']) false socket_state_init
      (by decide)
  obtain ⟨ret, st1, hrun⟩ := hreturns (by decide) ⟨_, rfl⟩
  obtain ⟨hfail, -, -, -⟩ := hon ret st1 hrun
  obtain ⟨h1, h2, h3, h4⟩ := hfail 98 (by decide)
  exact ⟨ret, st1, hrun, h1, h2, h3, h4⟩

/-- C13, the failing input: `open` returns the descriptor 5 and the lazy
unmount fails with `EBUSY`.  `ply_detach_directory` returns 0: a value that
is not negative, that is not the descriptor it opened, and that it returns
although the lazy unmount failed; the descriptor 5 is not closed.  The failure
branch ends in `return false`.  When `open` fails with -1 the result is -1,
and when all calls succeed the result is the descriptor 5. -/
theorem C13_detach_directory_returns_zero_on_failure :
    detach_seen (ply_detach_directory
        { open_result := ⟨5, 0⟩, umount2_result := ⟨-1, EBUSY⟩,
          umount_result := ⟨-1, EBUSY⟩, rmdir_result := ⟨0, 0⟩ }
        ['/', 'd'] errno_ctx_init) =
      Outcome.done { result := 0, errno := EBUSY, depth := 0,
                     calls := [DetachCall.open_called ['/', 'd'] O_RDONLY,
                               DetachCall.umount2_called ['/', 'd'] 2,
                               DetachCall.umount_called ['/', 'd']] } ∧
    detach_seen (ply_detach_directory
        { open_result := ⟨-1, ENOENT⟩, umount2_result := ⟨0, 0⟩,
          umount_result := ⟨-1, EBUSY⟩, rmdir_result := ⟨0, 0⟩ }
        ['/', 'd'] errno_ctx_init) =
      Outcome.done { result := -1, errno := ENOENT, depth := 0,
                     calls := [DetachCall.open_called ['/', 'd'] O_RDONLY,
                               DetachCall.umount_called ['/', 'd']] } ∧
    detach_seen (ply_detach_directory
        { open_result := ⟨5, 0⟩, umount2_result := ⟨0, 0⟩,
          umount_result := ⟨0, 0⟩, rmdir_result := ⟨0, 0⟩ }
        ['/', 'd'] errno_ctx_init) =
      Outcome.done { result := 5, errno := 0, depth := 0,
                     calls := [DetachCall.open_called ['/', 'd'] O_RDONLY,
                               DetachCall.umount2_called ['/', 'd'] 2,
                               DetachCall.rmdir_called ['/', 'd']] } := by
  refine ⟨?_, ?_, ?_⟩ <;> decide

/-- C14, the failing input: the path `foo` on a filesystem where `mkdir`
fails with `ENOENT` (as when the working directory was removed).  The path
holds no separator, `strrchr` returns the null pointer, and
`ply_create_directory` writes through it before any recursive call: the
recursion is not well defined.  On the path `/foo` with the same failure the
last separator is the first byte, the parent is the empty string, and the
recursive call stops at the assertion on the first byte of its path. -/
theorem C14_create_directory_undefined_without_separator :
    orphan_fs.mkdir () ['f', 'o', 'o'] 0o755 = Except.error ENOENT ∧
    strrchr ['f', 'o', 'o'] '/' = none ∧
    observe (ply_create_directory orphan_fs id ['f', 'o', 'o'] orphan_world)
      = Outcome.undefined ∧
    strrchr ['/', 'f', 'o', 'o'] '/' = some 0 ∧
    List.take 0 ['/', 'f', 'o', 'o'] = [] ∧
    observe (ply_create_directory orphan_fs id ['/', 'f', 'o', 'o'] orphan_world)
      = Outcome.assert_failed := by
  refine ⟨rfl, ?_, ?_, ?_, ?_, ?_⟩ <;> decide

end Ply
